import Mathlib

/-!
Verification development for the webShooter ECS game engine.

This file gives a shallow embedding of the engine core: the collision
pipeline (CollisionSystem.js, the Collider class in Physics.js and the
standalone gameUtils.js helpers), the movement integrator
(MovementSystem.js), the entity registry (Entity.js and the World class)
and the spatial hash grid (SpatialHashGrid), together with theorems about
their specified behaviour.

Numeric conventions: JavaScript numbers are modelled as exact rationals.
Comparisons of the form Math.sqrt e < s are embedded through their exact
squared equivalents (sqrtLt, sqrtLe below); the bridging lemmas to
Real.sqrt are proved where a claim speaks about Euclidean distance.
-/

namespace WebShooter

/-- Transform component (src/engine/ecs/components/Transform.js): position
and rotation. Scale is irrelevant to the verified systems and omitted. -/
structure Transform where
  x : ℚ
  y : ℚ
  rotation : ℚ
deriving DecidableEq, Repr

/-- Movement bounds carried by the Physics component. -/
structure PBounds where
  minX : ℚ
  minY : ℚ
  maxX : ℚ
  maxY : ℚ
deriving DecidableEq, Repr

/-- Physics component (src/engine/ecs/components/Physics.js). -/
structure Physics where
  velocityX : ℚ
  velocityY : ℚ
  rotationVelocity : ℚ
  friction : ℚ
  bounceX : ℚ
  bounceY : ℚ
  bounds : Option PBounds
  mass : ℚ
deriving DecidableEq, Repr

/-- Collider component (Collider class, second half of
src/engine/ecs/components/Physics.js). Rectangle dimensions and offsets
are never read by the collision system and are omitted. -/
structure Collider where
  type : String
  radius : ℚ
  layer : Int
  collidesWith : List Int
  isTrigger : Bool
deriving DecidableEq, Repr

/-- An entity as seen by the collision and movement systems: an id plus
optional Transform, Physics and Collider components and a tag list. -/
structure Entity where
  id : Nat
  transform : Option Transform
  physics : Option Physics
  collider : Option Collider
  tags : List String
deriving DecidableEq, Repr

/-- Collider.canCollideWith (Physics.js lines 242 to 244): true when the
layer of the other collider appears in the collidesWith list. -/
def Collider.canCollideWith (c other : Collider) : Bool :=
  c.collidesWith.contains other.layer

/-- Embeds the JavaScript comparison Math.sqrt d < s inside the rationals.
For real numbers, sqrt d < s holds iff 0 < s and d < s ^ 2 (theorem
sqrtLt_iff_real below), so this is the exact predicate the source
computes, free of the irrational square root. -/
def sqrtLt (d s : ℚ) : Bool :=
  decide (0 < s ∧ d < s ^ 2)

/-- Embeds the JavaScript comparison Math.sqrt d <= s inside the
rationals, analogously to sqrtLt. -/
def sqrtLe (d s : ℚ) : Bool :=
  decide (0 ≤ s ∧ d ≤ s ^ 2)

namespace CollisionSystem

/-- CollisionSystem.checkCollision (CollisionSystem.js lines 61 to 81):
guards for missing components, supports only circle colliders, and
compares the center distance with the sum of the radii using a strict
less-than. -/
def checkCollision (entityA entityB : Entity) : Bool :=
  match entityA.collider, entityB.collider, entityA.transform, entityB.transform with
  | some colliderA, some colliderB, some transformA, some transformB =>
    if colliderA.type = "circle" ∧ colliderB.type = "circle" then
      let dx := transformA.x - transformB.x
      let dy := transformA.y - transformB.y
      sqrtLt (dx * dx + dy * dy) (colliderA.radius + colliderB.radius)
    else
      false
  | _, _, _, _ => false

end CollisionSystem

namespace GameUtils

/-- Plain object with x, y and size as used by src/utils/gameUtils.js. -/
structure GameObj where
  x : ℚ
  y : ℚ
  size : ℚ
deriving DecidableEq, Repr

/-- gameUtils.checkCollision (gameUtils.js lines 46 to 54): distance
between the centers at most half the sum of the sizes; the source comment
states the closed boundary is deliberate. -/
def checkCollision (obj1 obj2 : GameObj) : Bool :=
  let dx := obj2.x - obj1.x
  let dy := obj2.y - obj1.y
  sqrtLe (dx * dx + dy * dy) ((obj1.size + obj2.size) / 2)

end GameUtils

namespace MovementSystem

/-- Post-friction velocity on one axis (MovementSystem.js lines 36 to 44).
frictionFactor stands for the JavaScript value Math.pow (1 - friction)
deltaTime, which is irrational in general and is therefore passed as a
parameter. The friction branch is taken exactly when 0 < friction, and a
resulting velocity of magnitude below 0.001 snaps to exactly zero. -/
def frictionVelocity (frictionFactor friction v : ℚ) : ℚ :=
  if 0 < friction then
    let w := v * frictionFactor
    if |w| < 1 / 1000 then 0 else w
  else v

/-- One axis of the bounds constraint (MovementSystem.js lines 52 to 86):
clamp the coordinate into the interval and, on a clamp, reflect the
velocity scaled by the bounce factor when that factor is nonzero (the
JavaScript truthiness test on the bounce number), else zero it. -/
def clampAxis (lo hi bounce pos v : ℚ) : ℚ × ℚ :=
  if pos < lo then
    (lo, if bounce ≠ 0 then -v * bounce else 0)
  else if pos > hi then
    (hi, if bounce ≠ 0 then -v * bounce else 0)
  else
    (pos, v)

/-- MovementSystem.update for one entity (MovementSystem.js lines 25 to
87): explicit Euler position update, friction decay with snap to zero,
rotation update when the rotation velocity is nonzero, then the bounds
clamp with bounce applied to each axis independently. -/
def integrate (deltaTime frictionFactor : ℚ) (t : Transform) (p : Physics) :
    Transform × Physics :=
  let x := t.x + p.velocityX * deltaTime
  let y := t.y + p.velocityY * deltaTime
  let vx := frictionVelocity frictionFactor p.friction p.velocityX
  let vy := frictionVelocity frictionFactor p.friction p.velocityY
  let rotation :=
    if p.rotationVelocity ≠ 0 then t.rotation + p.rotationVelocity * deltaTime
    else t.rotation
  match p.bounds with
  | none =>
    ({ x := x, y := y, rotation := rotation },
     { p with velocityX := vx, velocityY := vy })
  | some b =>
    let rx := clampAxis b.minX b.maxX p.bounceX x vx
    let ry := clampAxis b.minY b.maxY p.bounceY y vy
    ({ x := rx.1, y := ry.1, rotation := rotation },
     { p with velocityX := rx.2, velocityY := ry.2 })

end MovementSystem

namespace CollisionSystem

/-- JavaScript m || 1 on a mass value: 0 falls back to 1, any other number
is kept. -/
def massOr1 (m : ℚ) : ℚ :=
  if m = 0 then 1 else m

/-- CollisionSystem.resolveCollision (CollisionSystem.js lines 88 to 150).
The source computes distance as Math.sqrt (dx * dx + dy * dy); that value
is irrational in general and is passed here as the parameter dist, whose
defining property is 0 <= dist and dist ^ 2 = dx ^ 2 + dy ^ 2; theorems
assume it where they need it. All other arithmetic is exact. The source
reads bounce values through the fallback b || 0, the identity on numbers,
and masses through m || 1, embedded as massOr1. -/
def resolveCollision (dist : ℚ) (entityA entityB : Entity) : Entity × Entity :=
  match entityA.physics, entityB.physics, entityA.transform, entityB.transform,
        entityA.collider, entityB.collider with
  | some physicsA, some physicsB, some transformA, some transformB,
    some colliderA, some colliderB =>
    let dx := transformB.x - transformA.x
    let dy := transformB.y - transformA.y
    if dist = 0 then (entityA, entityB)
    else
      let nx := dx / dist
      let ny := dy / dist
      let relVelocityX := physicsB.velocityX - physicsA.velocityX
      let relVelocityY := physicsB.velocityY - physicsA.velocityY
      let velocityAlongNormal := relVelocityX * nx + relVelocityY * ny
      if velocityAlongNormal > 0 then (entityA, entityB)
      else
        let restitution := min (max physicsA.bounceX physicsA.bounceY)
                               (max physicsB.bounceX physicsB.bounceY)
        let impulseScalar := -(1 + restitution) * velocityAlongNormal
        let totalMass := massOr1 physicsA.mass + massOr1 physicsB.mass
        if totalMass = 0 then (entityA, entityB)
        else
          let impulseA := impulseScalar * (massOr1 physicsB.mass / totalMass)
          let impulseB := impulseScalar * (massOr1 physicsA.mass / totalMass)
          let physicsA2 := { physicsA with
            velocityX := physicsA.velocityX - nx * impulseA
            velocityY := physicsA.velocityY - ny * impulseA }
          let physicsB2 := { physicsB with
            velocityX := physicsB.velocityX + nx * impulseB
            velocityY := physicsB.velocityY + ny * impulseB }
          let correctionDistance := colliderA.radius + colliderB.radius - dist
          let correction := (1 / 2 : ℚ) * correctionDistance
          let transformA2 :=
            if correctionDistance > 0 then
              { transformA with
                x := transformA.x - nx * correction * (massOr1 physicsB.mass / totalMass)
                y := transformA.y - ny * correction * (massOr1 physicsB.mass / totalMass) }
            else transformA
          let transformB2 :=
            if correctionDistance > 0 then
              { transformB with
                x := transformB.x + nx * correction * (massOr1 physicsA.mass / totalMass)
                y := transformB.y + ny * correction * (massOr1 physicsA.mass / totalMass) }
            else transformB
          ({ entityA with physics := some physicsA2, transform := some transformA2 },
           { entityB with physics := some physicsB2, transform := some transformB2 })
  | _, _, _, _, _, _ => (entityA, entityB)

/-- One iteration of the pairwise loop body in CollisionSystem.update
(CollisionSystem.js lines 163 to 199) for a fixed pair: layer filtering
(the source tests only the canCollideWith of colliderA; the truthiness
guard on the method itself always passes because canCollideWith is a class
method), the narrow phase, resolution when both entities carry a Physics
component, and the start, stay, end callback dispatch driven by the
previous pair state. Returns the updated entities, the new pair state
(membership of the pair key in newCollidingPairs) and the list of callback
phases fired for the pair in order. Entities selected by this system
always carry a Collider (requiredComponents), so the fallthrough case is
unreachable in the engine and returns the skip behaviour. -/
def pairUpdate (dist : ℚ) (wasColliding : Bool) (entityA entityB : Entity) :
    (Entity × Entity) × Bool × List String :=
  match entityA.collider, entityB.collider with
  | some colliderA, some colliderB =>
    if ¬ colliderA.canCollideWith colliderB then ((entityA, entityB), false, [])
    else
      let isColliding := checkCollision entityA entityB
      if isColliding then
        let resolved :=
          if entityA.physics.isSome ∧ entityB.physics.isSome then
            resolveCollision dist entityA entityB
          else (entityA, entityB)
        (resolved, true, (if ¬ wasColliding then ["start"] else []) ++ ["stay"])
      else
        ((entityA, entityB), false, if wasColliding then ["end"] else [])
  | _, _ => ((entityA, entityB), false, [])

/-- Externally repositions an entity, as the pair state test scenario does
between frames. -/
def setPos (e : Entity) (q : ℚ × ℚ) : Entity :=
  { e with transform := some { x := q.1, y := q.2, rotation := 0 } }

/-- Runs the collision pair state machine over a sequence of frames for
one entity pair. Each frame externally repositions the two entities to
the given coordinates and executes the pairwise loop body; the pair state
is threaded from frame to frame exactly as collidingPairs is rebuilt into
newCollidingPairs, and every callback phase fired is accumulated in
order. The per-frame entity outputs are dropped because the scenario
drives positions externally; with no Physics component on either entity
the resolution step never runs, so nothing else in the pair state depends
on them. -/
def runFrames (entityA entityB : Entity) (frames : List ((ℚ × ℚ) × (ℚ × ℚ))) :
    Bool × List String :=
  frames.foldl
    (fun acc fr =>
      let r := pairUpdate 0 acc.1 (setPos entityA fr.1) (setPos entityB fr.2)
      (r.2.1, acc.2 ++ r.2.2))
    (false, [])

end CollisionSystem

/-- Entity record as stored by the registry (Entity.js): the component
type tags (the keys of the components map; payloads are irrelevant to
the registry claims), the string tags, and the destroyed flag. The base
Component class defines an onRemove detach hook, so every attached
component accounts for one detach hook invocation on destroy. -/
structure EEntity where
  eid : Nat
  comps : List String
  etags : List String
  destroyed : Bool
deriving DecidableEq, Repr

/-- The entity registry (World.js). objects holds every entity object
ever created: JavaScript object references survive removal from the
entities map, and operations addressed at a destroyed entity are guarded
by its destroyed flag. alive holds the keys of the entities map. The two
reverse indices are association lists from key to the member ids of the
JavaScript Set, in insertion order; a Set never holds duplicates, and an
index entry is deleted as soon as its set becomes empty. -/
structure World where
  objects : List EEntity
  alive : List Nat
  counter : Nat
  componentEntities : List (String × List Nat)
  taggedEntities : List (String × List Nat)
deriving DecidableEq, Repr

/-- Reading an index entry; a missing key reads as the empty set. -/
def idxLookup (m : List (String × List Nat)) (k : String) : List Nat :=
  match m.find? (fun p => p.1 == k) with
  | some p => p.2
  | none => []

/-- Map.get(k).add(v) with creation of a missing entry
(World.registerComponent and registerTag): Set.add is a no-op on a
present member and appends in insertion order otherwise. -/
def idxAdd (m : List (String × List Nat)) (k : String) (v : Nat) :
    List (String × List Nat) :=
  match m with
  | [] => [(k, [v])]
  | p :: rest =>
    if p.1 = k then (p.1, if v ∈ p.2 then p.2 else p.2 ++ [v]) :: rest
    else p :: idxAdd rest k v

/-- Map.get(k).delete(v) followed by deletion of the entry once its set
is empty (World.unregisterComponent and unregisterTag). -/
def idxRemove (m : List (String × List Nat)) (k : String) (v : Nat) :
    List (String × List Nat) :=
  match m with
  | [] => []
  | p :: rest =>
    if p.1 = k then
      let l := p.2.erase v
      if l = [] then rest else (p.1, l) :: rest
    else p :: idxRemove rest k v

/-- this.entities style lookup of the entity object with a given id. -/
def World.findObj (w : World) (id : Nat) : Option EEntity :=
  w.objects.find? (fun e => e.eid == id)

/-- Mutation of the entity object with the given id in place. -/
def World.updateObj (w : World) (id : Nat) (f : EEntity → EEntity) : World :=
  { w with objects := w.objects.map (fun e => if e.eid = id then f e else e) }

/-- World.createEntity (World.js lines 312 to 317): allocates the next
counter id, creates an empty entity and stores it in the entities map. -/
def World.createEntity (w : World) : World :=
  { w with
    objects := w.objects ++ [{ eid := w.counter, comps := [], etags := [], destroyed := false }]
    alive := w.alive ++ [w.counter]
    counter := w.counter + 1 }

/-- World.registerComponent (World.js lines 338 to 349). -/
def World.registerComponent (w : World) (t : String) (id : Nat) : World :=
  { w with componentEntities := idxAdd w.componentEntities t id }

/-- World.unregisterComponent (World.js lines 356 to 369). -/
def World.unregisterComponent (w : World) (t : String) (id : Nat) : World :=
  { w with componentEntities := idxRemove w.componentEntities t id }

/-- World.registerTag (World.js lines 376 to 384). -/
def World.registerTag (w : World) (g : String) (id : Nat) : World :=
  { w with taggedEntities := idxAdd w.taggedEntities g id }

/-- World.unregisterTag (World.js lines 391 to 401). -/
def World.unregisterTag (w : World) (g : String) (id : Nat) : World :=
  { w with taggedEntities := idxRemove w.taggedEntities g id }

/-- Entity.removeComponent (Entity.js lines 81 to 103): a warning no-op
on a destroyed or unknown entity; otherwise, when the type is present,
fires its onRemove hook (the returned count), deletes it from the entity
and unregisters the entity from the reverse index. -/
def World.removeComponent (w : World) (id : Nat) (t : String) : World × Nat :=
  match w.findObj id with
  | none => (w, 0)
  | some e =>
    if e.destroyed then (w, 0)
    else if t ∈ e.comps then
      ((w.updateObj id (fun e0 => { e0 with comps := e0.comps.erase t })).unregisterComponent t id, 1)
    else (w, 0)

/-- Entity.addComponent (Entity.js lines 48 to 74): a warning no-op on a
destroyed or unknown entity; a present component of the same type is
removed first (replacement), then the component is stored and the entity
registered in the reverse index. -/
def World.addComponent (w : World) (id : Nat) (t : String) : World :=
  match w.findObj id with
  | none => w
  | some e =>
    if e.destroyed then w
    else
      let w1 := if t ∈ e.comps then (w.removeComponent id t).1 else w
      (w1.updateObj id (fun e0 => { e0 with comps := e0.comps ++ [t] })).registerComponent t id

/-- Entity.addTag (Entity.js lines 128 to 140). -/
def World.addTag (w : World) (id : Nat) (g : String) : World :=
  match w.findObj id with
  | none => w
  | some e =>
    if e.destroyed then w
    else if g ∈ e.etags then w
    else (w.updateObj id (fun e0 => { e0 with etags := e0.etags ++ [g] })).registerTag g id

/-- Entity.removeTag (Entity.js lines 147 to 159). -/
def World.removeTag (w : World) (id : Nat) (g : String) : World :=
  match w.findObj id with
  | none => w
  | some e =>
    if e.destroyed then w
    else if g ∈ e.etags then
      (w.updateObj id (fun e0 => { e0 with etags := e0.etags.erase g })).unregisterTag g id
    else w

/-- Entity.destroy (Entity.js lines 181 to 211): a no-op on an already
destroyed or unknown entity; otherwise fires the onRemove hook of every
component (the returned count), unregisters every component type and tag
from the reverse indices, clears both containers, marks the entity
destroyed and removes it from the entities map through
World.destroyEntity, whose recursive destroy call hits the destroyed
guard. -/
def World.entityDestroy (w : World) (id : Nat) : World × Nat :=
  match w.findObj id with
  | none => (w, 0)
  | some e =>
    if e.destroyed then (w, 0)
    else
      let w1 := e.comps.foldl (fun acc t => acc.unregisterComponent t id) w
      let w2 := e.etags.foldl (fun acc g => acc.unregisterTag g id) w1
      let w3 := w2.updateObj id
        (fun e0 => { e0 with comps := [], etags := [], destroyed := true })
      ({ w3 with alive := w3.alive.erase id }, e.comps.length)

/-- World.destroyEntity (World.js lines 323 to 331): looks the id up in
the entities map, destroys the entity and deletes the map entry (already
performed inside Entity.destroy, so the extra delete is a no-op). -/
def World.destroyEntity (w : World) (id : Nat) : World × Nat :=
  if id ∈ w.alive then w.entityDestroy id else (w, 0)

/-- World.getEntitiesWithComponents (World.js lines 431 to 470): an empty
type list yields all entities in the map; otherwise start from the
holders of the first type, give the empty result when a requested type
has no index entry, and intersect with the holders of every further
type. The source returns early on a missing entry or an emptied
intersection; the fold below is extensionally identical because an empty
running result stays empty under both steps. -/
def World.getEntitiesWithComponents (w : World) (componentTypes : List String) : List Nat :=
  match componentTypes with
  | [] => w.alive
  | t0 :: rest =>
    match w.componentEntities.find? (fun p => p.1 == t0) with
    | none => []
    | some p0 =>
      rest.foldl
        (fun result t =>
          match w.componentEntities.find? (fun p => p.1 == t) with
          | none => []
          | some pt => result.filter (fun id => id ∈ pt.2))
        p0.2

/-- World.getEntitiesWithTag (World.js lines 477 to 482). -/
def World.getEntitiesWithTag (w : World) (tag : String) : List Nat :=
  idxLookup w.taggedEntities tag

/-- Whether the entity object with the given id currently holds the
component type (the forward mapping entity.components). -/
def World.entityHasComponent (w : World) (id : Nat) (t : String) : Bool :=
  match w.findObj id with
  | some e => e.comps.contains t
  | none => false

/-- Registry operations of the public mutation API, used to quantify over
arbitrary operation sequences. -/
inductive WorldOp where
  | create : WorldOp
  | addComponent : Nat → String → WorldOp
  | removeComponent : Nat → String → WorldOp
  | addTag : Nat → String → WorldOp
  | removeTag : Nat → String → WorldOp
  | destroy : Nat → WorldOp
deriving DecidableEq, Repr

/-- Interpretation of one registry operation. -/
def World.applyOp (w : World) : WorldOp → World
  | .create => w.createEntity
  | .addComponent id t => w.addComponent id t
  | .removeComponent id t => (w.removeComponent id t).1
  | .addTag id g => w.addTag id g
  | .removeTag id g => w.removeTag id g
  | .destroy id => (w.entityDestroy id).1

/-- Interpretation of a sequence of registry operations. -/
def World.applyOps (w : World) (ops : List WorldOp) : World :=
  ops.foldl World.applyOp w

/-- The freshly constructed World (World.js constructor). -/
def World.init : World :=
  { objects := [], alive := [], counter := 0, componentEntities := [], taggedEntities := [] }

/-- The registry consistency invariant: unique ids below the counter,
the entities map consistent with the destroyed flags, and the two
reverse indices consistent in both directions with the forward
per-entity containers, with duplicate free index entries and keys. -/
structure WInv (w : World) : Prop where
  objNodup : (w.objects.map EEntity.eid).Nodup
  objLt : ∀ e ∈ w.objects, e.eid < w.counter
  aliveNodup : w.alive.Nodup
  aliveObj : ∀ id ∈ w.alive, ∃ e ∈ w.objects, e.eid = id ∧ e.destroyed = false
  objAlive : ∀ e ∈ w.objects, e.destroyed = false → e.eid ∈ w.alive
  compsNodup : ∀ e ∈ w.objects, e.comps.Nodup
  etagsNodup : ∀ e ∈ w.objects, e.etags.Nodup
  compKeys : (w.componentEntities.map Prod.fst).Nodup
  tagKeys : (w.taggedEntities.map Prod.fst).Nodup
  compEntries : ∀ t, (idxLookup w.componentEntities t).Nodup
  tagEntries : ∀ g, (idxLookup w.taggedEntities g).Nodup
  compRev : ∀ t id, id ∈ idxLookup w.componentEntities t →
    ∃ e ∈ w.objects, e.eid = id ∧ e.destroyed = false ∧ t ∈ e.comps
  tagRev : ∀ g id, id ∈ idxLookup w.taggedEntities g →
    ∃ e ∈ w.objects, e.eid = id ∧ e.destroyed = false ∧ g ∈ e.etags
  compFwd : ∀ e ∈ w.objects, e.destroyed = false → ∀ t ∈ e.comps,
    e.eid ∈ idxLookup w.componentEntities t
  tagFwd : ∀ e ∈ w.objects, e.destroyed = false → ∀ g ∈ e.etags,
    e.eid ∈ idxLookup w.taggedEntities g


/-- Purged state of an id: the id was allocated, is absent from the
entities map, every object carrying it is marked destroyed, and it
appears in no reverse index entry. -/
structure Gone (w : World) (i : Nat) : Prop where
  lt : i < w.counter
  notAlive : i ∉ w.alive
  objDestroyed : ∀ e ∈ w.objects, e.eid = i → e.destroyed = true
  notComp : ∀ t, i ∉ idxLookup w.componentEntities t
  notTag : ∀ g, i ∉ idxLookup w.taggedEntities g

/-- Entity as seen by the SpatialHashGrid: the id stands for the
JavaScript object reference (two distinct objects are modelled with
distinct ids), position and collider are optional because insertEntity
requires both, the collider is represented by its radius (the only field
the grid reads, through radius or 0, the identity on rationals), and
etype is the type property with the empty string standing for an absent
or falsy type. -/
structure GridEntity where
  gid : Nat
  pos : Option (ℚ × ℚ)
  radius : Option ℚ
  etype : String
deriving DecidableEq, Repr

/-- The spatial hash grid (SpatialHashGrid class): dimensions, cell
size, the column and row counts computed by the constructor, the cells
map keyed by (column, row) holding arrays of entities in push order, and
the per entity _spatialCells side record, keyed by entity. -/
structure SpatialHashGrid where
  width : ℚ
  height : ℚ
  cellSize : ℚ
  columns : Int
  rows : Int
  cells : List ((Int × Int) × List GridEntity)
  spatialCells : List (Nat × List (Int × Int))
deriving DecidableEq, Repr

/-- The SpatialHashGrid constructor: columns and rows are the ceiling of
the dimensions over the cell size, the grid starts empty. -/
def SpatialHashGrid.make (width height cellSize : ℚ) : SpatialHashGrid :=
  { width := width, height := height, cellSize := cellSize,
    columns := ⌈width / cellSize⌉, rows := ⌈height / cellSize⌉,
    cells := [], spatialCells := [] }

/-- The inclusive integer range of a JavaScript for loop from lo to hi
(empty when hi is below lo). -/
def intRange (lo hi : Int) : List Int :=
  (List.range (hi + 1 - lo).toNat).map (fun k => lo + k)

/-- The cell keys the bounding circle at (x, y) with the given radius
overlaps, clamped to the grid extent, in the loop order of insertEntity
(outer loop over columns, inner over rows). -/
def SpatialHashGrid.entityCells (g : SpatialHashGrid) (x y radius : ℚ) :
    List (Int × Int) :=
  let minCol := max 0 ⌊(x - radius) / g.cellSize⌋
  let maxCol := min (g.columns - 1) ⌊(x + radius) / g.cellSize⌋
  let minRow := max 0 ⌊(y - radius) / g.cellSize⌋
  let maxRow := min (g.rows - 1) ⌊(y + radius) / g.cellSize⌋
  (intRange minCol maxCol).flatMap (fun col => (intRange minRow maxRow).map (fun row => (col, row)))

/-- Map get-or-create followed by Array.push on a cell. -/
def cellAdd (cells : List ((Int × Int) × List GridEntity)) (k : Int × Int)
    (e : GridEntity) : List ((Int × Int) × List GridEntity) :=
  match cells with
  | [] => [(k, [e])]
  | p :: rest => if p.1 = k then (p.1, p.2 ++ [e]) :: rest else p :: cellAdd rest k e

/-- Reading a cell; a missing key reads as the empty array. -/
def cellLookup (cells : List ((Int × Int) × List GridEntity)) (k : Int × Int) :
    List GridEntity :=
  match cells.find? (fun p => p.1 == k) with
  | some p => p.2
  | none => []

/-- Overwrites the _spatialCells record of an entity. -/
def scSet (sc : List (Nat × List (Int × Int))) (gid : Nat) (keys : List (Int × Int)) :
    List (Nat × List (Int × Int)) :=
  match sc with
  | [] => [(gid, keys)]
  | p :: rest => if p.1 = gid then (gid, keys) :: rest else p :: scSet rest gid keys

/-- Reads the _spatialCells record of an entity; none stands for the
field being undefined. -/
def scLookup (sc : List (Nat × List (Int × Int))) (gid : Nat) :
    Option (List (Int × Int)) :=
  match sc.find? (fun p => p.1 == gid) with
  | some p => some p.2
  | none => none

/-- SpatialHashGrid.insertEntity: requires position and collider,
computes the overlapped cell range, records the key list on the entity
and pushes the entity into every such cell. -/
def SpatialHashGrid.insertEntity (g : SpatialHashGrid) (e : GridEntity) :
    SpatialHashGrid :=
  match e.pos, e.radius with
  | some (x, y), some radius =>
    let keys := g.entityCells x y radius
    { g with
      cells := keys.foldl (fun cs k => cellAdd cs k e) g.cells
      spatialCells := scSet g.spatialCells e.gid keys }
  | _, _ => g

/-- Inserts a list of entities in order. -/
def SpatialHashGrid.insertAll (g : SpatialHashGrid) (es : List GridEntity) :
    SpatialHashGrid :=
  es.foldl SpatialHashGrid.insertEntity g

/-- The type filter of getNearbyEntities: no filter, or the entity type
is truthy (nonempty) and equal to the requested type. -/
def typeMatches (t : Option String) (o : GridEntity) : Prop :=
  t = none ∨ (o.etype ≠ "" ∧ some o.etype = t)

instance (t : Option String) (o : GridEntity) : Decidable (typeMatches t o) := by
  unfold typeMatches
  infer_instance

/-- SpatialHashGrid.getNearbyEntities: the Set union over all recorded
cells of the entity, skipping the entity itself (reference inequality,
modelled as value inequality, adequate for distinct ids) and applying
the optional type filter; Array.from preserves Set insertion order,
modelled by appending on first occurrence. -/
def SpatialHashGrid.getNearbyEntities (g : SpatialHashGrid) (e : GridEntity)
    (t : Option String) : List GridEntity :=
  match e.pos, scLookup g.spatialCells e.gid with
  | some _, some keys =>
    keys.foldl
      (fun res k =>
        (cellLookup g.cells k).foldl
          (fun res o =>
            if o ≠ e ∧ typeMatches t o then
              (if o ∈ res then res else res ++ [o])
            else res)
          res)
      []
  | _, _ => []

/-- Builds an entity carrying a circle collider of the given radius at the
given position, on layer 0 colliding with layer 0, no physics. -/
def circleEntity (id : Nat) (x y radius : ℚ) : Entity :=
  { id := id
    transform := some { x := x, y := y, rotation := 0 }
    physics := none
    collider := some { type := "circle", radius := radius, layer := 0,
                       collidesWith := [0], isTrigger := false }
    tags := [] }

theorem real_sqrt_lt_iff (d s : ℝ) : Real.sqrt d < s ↔ 0 < s ∧ d < s ^ 2 := by
  constructor
  · intro h
    have hs : 0 < s := lt_of_le_of_lt (Real.sqrt_nonneg d) h
    exact ⟨hs, (Real.sqrt_lt' hs).mp h⟩
  · rintro ⟨hs, h⟩
    exact (Real.sqrt_lt' hs).mpr h

theorem sqrtLt_iff_real (d s : ℚ) :
    sqrtLt d s = true ↔ Real.sqrt (d : ℝ) < (s : ℝ) := by
  rw [sqrtLt, decide_eq_true_iff, real_sqrt_lt_iff]
  constructor
  · rintro ⟨hs, h⟩
    exact ⟨by exact_mod_cast hs, by exact_mod_cast h⟩
  · rintro ⟨hs, h⟩
    exact ⟨by exact_mod_cast hs, by exact_mod_cast h⟩

theorem sqrtLe_iff_real (d s : ℚ) :
    sqrtLe d s = true ↔ Real.sqrt (d : ℝ) ≤ (s : ℝ) := by
  rw [sqrtLe, decide_eq_true_iff, Real.sqrt_le_iff]
  constructor
  · rintro ⟨hs, h⟩
    exact ⟨by exact_mod_cast hs, by exact_mod_cast h⟩
  · rintro ⟨h, hs⟩
    exact ⟨by exact_mod_cast h, by exact_mod_cast hs⟩

/-- C1, counterexample: two circle colliders of radius 5 whose centers are
exactly 10 apart (Euclidean distance equal to the radius sum, as the
second conjunct computes) are reported as NOT colliding by
CollisionSystem.checkCollision, refuting the claimed closed boundary. -/
theorem c1_closed_boundary_counterexample :
    CollisionSystem.checkCollision (circleEntity 0 0 0 5) (circleEntity 1 10 0 5) = false ∧
    Real.sqrt (((0 : ℝ) - 10) ^ 2 + ((0 : ℝ) - 0) ^ 2) = 5 + 5 := by
  constructor
  · simp [CollisionSystem.checkCollision, circleEntity, sqrtLt]
    norm_num
  · have h : ((0 : ℝ) - 10) ^ 2 + ((0 : ℝ) - 0) ^ 2 = 10 ^ 2 := by norm_num
    rw [h, Real.sqrt_sq (by norm_num : (0 : ℝ) ≤ 10)]
    norm_num

/-- C1 (amended): the collision-system narrow phase reports two circle
colliders as colliding iff the Euclidean distance between their centers is
strictly less than the sum of their radii (open boundary: distance exactly
equal to the sum is NOT colliding), while the standalone
gameUtils.checkCollision compares distance against half the sum of the
sizes with a closed boundary. -/
theorem c1_narrow_phase_open_boundary (a b : Entity) (ca cb : Collider) (ta tb : Transform)
    (hca : a.collider = some ca) (hcb : b.collider = some cb)
    (hta : a.transform = some ta) (htb : b.transform = some tb)
    (hcircA : ca.type = "circle") (hcircB : cb.type = "circle") :
    (CollisionSystem.checkCollision a b = true ↔
      Real.sqrt (((ta.x : ℝ) - (tb.x : ℝ)) ^ 2 + ((ta.y : ℝ) - (tb.y : ℝ)) ^ 2)
        < (ca.radius : ℝ) + (cb.radius : ℝ)) ∧
    (∀ o1 o2 : GameUtils.GameObj,
      GameUtils.checkCollision o1 o2 = true ↔
      Real.sqrt (((o2.x : ℝ) - (o1.x : ℝ)) ^ 2 + ((o2.y : ℝ) - (o1.y : ℝ)) ^ 2)
        ≤ ((o1.size : ℝ) + (o2.size : ℝ)) / 2) := by
  constructor
  · have hd : (((ta.x - tb.x) * (ta.x - tb.x) + (ta.y - tb.y) * (ta.y - tb.y) : ℚ) : ℝ)
        = ((ta.x : ℝ) - (tb.x : ℝ)) ^ 2 + ((ta.y : ℝ) - (tb.y : ℝ)) ^ 2 := by
      push_cast
      ring
    have hs : ((ca.radius + cb.radius : ℚ) : ℝ) = (ca.radius : ℝ) + (cb.radius : ℝ) := by
      push_cast
      ring
    rw [CollisionSystem.checkCollision, hca, hcb, hta, htb]
    simp only [hcircA, hcircB, and_self, if_true]
    rw [sqrtLt_iff_real, hd, hs]
  · intro o1 o2
    have hd : (((o2.x - o1.x) * (o2.x - o1.x) + (o2.y - o1.y) * (o2.y - o1.y) : ℚ) : ℝ)
        = ((o2.x : ℝ) - (o1.x : ℝ)) ^ 2 + ((o2.y : ℝ) - (o1.y : ℝ)) ^ 2 := by
      push_cast
      ring
    have hs : (((o1.size + o2.size) / 2 : ℚ) : ℝ) = ((o1.size : ℝ) + (o2.size : ℝ)) / 2 := by
      push_cast
      ring
    rw [GameUtils.checkCollision]
    rw [sqrtLe_iff_real, hd, hs]

/-- C1, witness for the amended theorem: two circles of radius 5 whose
centers are 6 apart are colliding, and the theorem applies at that
input. -/
theorem c1_narrow_phase_open_boundary_witness :
    CollisionSystem.checkCollision (circleEntity 0 0 0 5) (circleEntity 1 6 0 5) = true ∧
    (CollisionSystem.checkCollision (circleEntity 0 0 0 5) (circleEntity 1 6 0 5) = true ↔
      Real.sqrt ((((0 : ℚ) : ℝ) - ((6 : ℚ) : ℝ)) ^ 2 + (((0 : ℚ) : ℝ) - ((0 : ℚ) : ℝ)) ^ 2)
        < (((5 : ℚ)) : ℝ) + (((5 : ℚ)) : ℝ)) := by
  refine ⟨by simp [CollisionSystem.checkCollision, circleEntity, sqrtLt]; norm_num, ?_⟩
  exact (c1_narrow_phase_open_boundary (circleEntity 0 0 0 5) (circleEntity 1 6 0 5)
    { type := "circle", radius := 5, layer := 0, collidesWith := [0], isTrigger := false }
    { type := "circle", radius := 5, layer := 0, collidesWith := [0], isTrigger := false }
    { x := 0, y := 0, rotation := 0 } { x := 6, y := 0, rotation := 0 }
    rfl rfl rfl rfl rfl rfl).1

theorem MovementSystem.clampAxis_of_lt (lo hi bounce pos v : ℚ) (h : pos < lo) :
    MovementSystem.clampAxis lo hi bounce pos v =
      (lo, if bounce ≠ 0 then -v * bounce else 0) := by
  simp [MovementSystem.clampAxis, h]

theorem MovementSystem.clampAxis_of_gt (lo hi bounce pos v : ℚ)
    (h1 : ¬ pos < lo) (h2 : pos > hi) :
    MovementSystem.clampAxis lo hi bounce pos v =
      (hi, if bounce ≠ 0 then -v * bounce else 0) := by
  simp [MovementSystem.clampAxis, h1, h2]

theorem MovementSystem.integrate_bounds (deltaTime frictionFactor : ℚ) (t : Transform)
    (p : Physics) (b : PBounds) (hb : p.bounds = some b) :
    MovementSystem.integrate deltaTime frictionFactor t p =
      (let rx := MovementSystem.clampAxis b.minX b.maxX p.bounceX
                   (t.x + p.velocityX * deltaTime)
                   (MovementSystem.frictionVelocity frictionFactor p.friction p.velocityX)
       let ry := MovementSystem.clampAxis b.minY b.maxY p.bounceY
                   (t.y + p.velocityY * deltaTime)
                   (MovementSystem.frictionVelocity frictionFactor p.friction p.velocityY)
       ({ x := rx.1, y := ry.1,
          rotation := if p.rotationVelocity ≠ 0 then t.rotation + p.rotationVelocity * deltaTime
                      else t.rotation },
        { p with velocityX := rx.2, velocityY := ry.2 })) := by
  rw [MovementSystem.integrate, hb]

/-- C7: when the movement integrator clamps the x position to a bounds
limit, the outgoing x velocity is the post-friction velocity reflected and
scaled by bounceX when bounceX is nonzero, and exactly zero when bounceX
is zero, and the position lands exactly on the violated limit. Stated for
the x axis, which the claim instantiates; the y axis code is identical. -/
theorem c7_bounds_bounce_velocity (deltaTime frictionFactor : ℚ) (t : Transform)
    (p : Physics) (b : PBounds) (hb : p.bounds = some b) :
    ((t.x + p.velocityX * deltaTime < b.minX →
      (MovementSystem.integrate deltaTime frictionFactor t p).2.velocityX =
        (if p.bounceX ≠ 0 then
          -(MovementSystem.frictionVelocity frictionFactor p.friction p.velocityX) * p.bounceX
         else 0) ∧
      (MovementSystem.integrate deltaTime frictionFactor t p).1.x = b.minX) ∧
     (¬ t.x + p.velocityX * deltaTime < b.minX →
      t.x + p.velocityX * deltaTime > b.maxX →
      (MovementSystem.integrate deltaTime frictionFactor t p).2.velocityX =
        (if p.bounceX ≠ 0 then
          -(MovementSystem.frictionVelocity frictionFactor p.friction p.velocityX) * p.bounceX
         else 0) ∧
      (MovementSystem.integrate deltaTime frictionFactor t p).1.x = b.maxX)) := by
  rw [MovementSystem.integrate_bounds deltaTime frictionFactor t p b hb]
  constructor
  · intro hlt
    rw [MovementSystem.clampAxis_of_lt _ _ _ _ _ hlt]
    exact ⟨rfl, rfl⟩
  · intro hge hgt
    rw [MovementSystem.clampAxis_of_gt _ _ _ _ _ hge hgt]
    exact ⟨rfl, rfl⟩

/-- C7, witness: an entity at x 0 with velocity -5, bounceX one half and
lower bound -3 is clamped to -3 and leaves with velocity 5 / 2; with
bounceX zero the outgoing velocity is exactly zero. -/
theorem c7_bounds_bounce_velocity_witness :
    ((MovementSystem.integrate 1 1 { x := 0, y := 0, rotation := 0 }
        { velocityX := -5, velocityY := 0, rotationVelocity := 0, friction := 0,
          bounceX := 1 / 2, bounceY := 0,
          bounds := some { minX := -3, minY := -100, maxX := 100, maxY := 100 },
          mass := 1 }).2.velocityX = 5 / 2 ∧
     (MovementSystem.integrate 1 1 { x := 0, y := 0, rotation := 0 }
        { velocityX := -5, velocityY := 0, rotationVelocity := 0, friction := 0,
          bounceX := 1 / 2, bounceY := 0,
          bounds := some { minX := -3, minY := -100, maxX := 100, maxY := 100 },
          mass := 1 }).1.x = -3) ∧
    (MovementSystem.integrate 1 1 { x := 0, y := 0, rotation := 0 }
        { velocityX := -5, velocityY := 0, rotationVelocity := 0, friction := 0,
          bounceX := 0, bounceY := 0,
          bounds := some { minX := -3, minY := -100, maxX := 100, maxY := 100 },
          mass := 1 }).2.velocityX = 0 := by
  have h1 := (c7_bounds_bounce_velocity 1 1 { x := 0, y := 0, rotation := 0 }
    { velocityX := -5, velocityY := 0, rotationVelocity := 0, friction := 0,
      bounceX := 1 / 2, bounceY := 0,
      bounds := some { minX := -3, minY := -100, maxX := 100, maxY := 100 },
      mass := 1 } { minX := -3, minY := -100, maxX := 100, maxY := 100 } rfl).1
    (by norm_num)
  have h2 := (c7_bounds_bounce_velocity 1 1 { x := 0, y := 0, rotation := 0 }
    { velocityX := -5, velocityY := 0, rotationVelocity := 0, friction := 0,
      bounceX := 0, bounceY := 0,
      bounds := some { minX := -3, minY := -100, maxX := 100, maxY := 100 },
      mass := 1 } { minX := -3, minY := -100, maxX := 100, maxY := 100 } rfl).1
    (by norm_num)
  refine ⟨⟨?_, h1.2⟩, ?_⟩
  · rw [h1.1]
    norm_num [MovementSystem.frictionVelocity]
  · rw [h2.1]
    norm_num

theorem massOr1_of_ne (m : ℚ) (h : m ≠ 0) : CollisionSystem.massOr1 m = m := by
  simp [CollisionSystem.massOr1, h]

/-- C10: the impulse application in resolveCollision conserves linear
momentum exactly. For any pair of entities whose Physics masses are
nonzero (the Physics constructor clamps mass to at least 0.001), the sum
of mass times velocity over the pair is unchanged on both axes, the
masses themselves are untouched, and this holds in every branch of the
procedure including the early returns; the positional correction changes
only transforms. The dist parameter stands for the computed center
distance and the conservation holds for every value of it. -/
theorem c10_momentum_conserved (dist : ℚ) (a b : Entity) (pA pB : Physics)
    (ha : a.physics = some pA) (hb : b.physics = some pB)
    (hmA : pA.mass ≠ 0) (hmB : pB.mass ≠ 0) :
    ∃ pA2 pB2 : Physics,
      (CollisionSystem.resolveCollision dist a b).1.physics = some pA2 ∧
      (CollisionSystem.resolveCollision dist a b).2.physics = some pB2 ∧
      pA2.mass = pA.mass ∧ pB2.mass = pB.mass ∧
      pA.mass * pA2.velocityX + pB.mass * pB2.velocityX =
        pA.mass * pA.velocityX + pB.mass * pB.velocityX ∧
      pA.mass * pA2.velocityY + pB.mass * pB2.velocityY =
        pA.mass * pA.velocityY + pB.mass * pB.velocityY := by
  obtain ⟨ia, ta, pa, ca, ga⟩ := a
  obtain ⟨ib, tb, pb, cb, gb⟩ := b
  simp only at ha hb
  subst ha hb
  rcases ta with _ | tA <;> rcases tb with _ | tB <;>
    rcases ca with _ | cA <;> rcases cb with _ | cB
  case some.some.some.some =>
    simp only [CollisionSystem.resolveCollision]
    split_ifs with h1 h2 h3 h4
    all_goals first
      | exact ⟨pA, pB, rfl, rfl, rfl, rfl, rfl, rfl⟩
      | (refine ⟨_, _, rfl, rfl, rfl, rfl, ?_, ?_⟩ <;>
          · have hd : dist ≠ 0 := h1
            have hm : pA.mass + pB.mass ≠ 0 := by
              simpa [massOr1_of_ne pA.mass hmA, massOr1_of_ne pB.mass hmB] using h3
            simp only [massOr1_of_ne pA.mass hmA, massOr1_of_ne pB.mass hmB]
            field_simp
            ring)
  all_goals
    exact ⟨pA, pB, by simp [CollisionSystem.resolveCollision], by
      simp [CollisionSystem.resolveCollision], rfl, rfl, rfl, rfl⟩

/-- C10, witness: a head-on pair with masses 1 and 1 and center distance
6; applying the theorem at this input yields the conservation
equations. -/
theorem c10_momentum_conserved_witness :
    (1 : ℚ) ≠ 0 ∧
    ∃ pA2 pB2 : Physics,
      (CollisionSystem.resolveCollision 6
        { id := 0, transform := some { x := 0, y := 0, rotation := 0 },
          physics := some { velocityX := 1, velocityY := 0, rotationVelocity := 0,
                            friction := 0, bounceX := 0, bounceY := 0,
                            bounds := none, mass := 1 },
          collider := some { type := "circle", radius := 5, layer := 0,
                             collidesWith := [0], isTrigger := false },
          tags := [] }
        { id := 1, transform := some { x := 6, y := 0, rotation := 0 },
          physics := some { velocityX := 0, velocityY := 0, rotationVelocity := 0,
                            friction := 0, bounceX := 0, bounceY := 0,
                            bounds := none, mass := 1 },
          collider := some { type := "circle", radius := 5, layer := 0,
                             collidesWith := [0], isTrigger := false },
          tags := [] }).1.physics = some pA2 ∧
      (CollisionSystem.resolveCollision 6
        { id := 0, transform := some { x := 0, y := 0, rotation := 0 },
          physics := some { velocityX := 1, velocityY := 0, rotationVelocity := 0,
                            friction := 0, bounceX := 0, bounceY := 0,
                            bounds := none, mass := 1 },
          collider := some { type := "circle", radius := 5, layer := 0,
                             collidesWith := [0], isTrigger := false },
          tags := [] }
        { id := 1, transform := some { x := 6, y := 0, rotation := 0 },
          physics := some { velocityX := 0, velocityY := 0, rotationVelocity := 0,
                            friction := 0, bounceX := 0, bounceY := 0,
                            bounds := none, mass := 1 },
          collider := some { type := "circle", radius := 5, layer := 0,
                             collidesWith := [0], isTrigger := false },
          tags := [] }).2.physics = some pB2 ∧
      pA2.mass = (1 : ℚ) ∧ pB2.mass = (1 : ℚ) ∧
      (1 : ℚ) * pA2.velocityX + (1 : ℚ) * pB2.velocityX = (1 : ℚ) * 1 + (1 : ℚ) * 0 ∧
      (1 : ℚ) * pA2.velocityY + (1 : ℚ) * pB2.velocityY = (1 : ℚ) * 0 + (1 : ℚ) * 0 := by
  refine ⟨by norm_num, ?_⟩
  exact c10_momentum_conserved 6 _ _
    { velocityX := 1, velocityY := 0, rotationVelocity := 0, friction := 0,
      bounceX := 0, bounceY := 0, bounds := none, mass := 1 }
    { velocityX := 0, velocityY := 0, rotationVelocity := 0, friction := 0,
      bounceX := 0, bounceY := 0, bounds := none, mass := 1 }
    rfl rfl (by norm_num) (by norm_num)

theorem setPos_collider (e : Entity) (q : ℚ × ℚ) :
    (CollisionSystem.setPos e q).collider = e.collider := rfl

theorem pairUpdate_state_events (dist : ℚ) (was : Bool) (a b : Entity) (cA cB : Collider)
    (hca : a.collider = some cA) (hcb : b.collider = some cB)
    (hcan : cA.canCollideWith cB = true) :
    (CollisionSystem.pairUpdate dist was a b).2 =
      if CollisionSystem.checkCollision a b then
        (true, (if ¬ was then ["start"] else []) ++ ["stay"])
      else (false, if was then ["end"] else []) := by
  simp only [CollisionSystem.pairUpdate, hca, hcb, hcan]
  cases hcc : CollisionSystem.checkCollision a b <;> simp [hcc]

theorem pairUpdate_skip (dist : ℚ) (was : Bool) (a b : Entity) (cA cB : Collider)
    (hca : a.collider = some cA) (hcb : b.collider = some cB)
    (hno : cA.canCollideWith cB = false) :
    CollisionSystem.pairUpdate dist was a b = ((a, b), false, []) := by
  simp only [CollisionSystem.pairUpdate, hca, hcb, hno]
  simp

/-- C8: a pair of collider-bearing entities where neither collider lists
the layer of the other in collidesWith is never reported: over every frame
sequence the pair tracking state stays absent (false) and no callback
phase at all is fired for the pair. The source checks the layer filter
from the side of entity A before the narrow phase, which already rejects
every such pair. -/
theorem c8_disjoint_layers_never_reported (a b : Entity) (cA cB : Collider)
    (hca : a.collider = some cA) (hcb : b.collider = some cB)
    (hAB : cB.layer ∉ cA.collidesWith) (hBA : cA.layer ∉ cB.collidesWith) :
    ∀ frames : List ((ℚ × ℚ) × (ℚ × ℚ)),
      CollisionSystem.runFrames a b frames = (false, []) := by
  have hno : cA.canCollideWith cB = false := by
    simp only [Collider.canCollideWith]
    simpa using hAB
  intro frames
  rw [CollisionSystem.runFrames]
  induction frames with
  | nil => rfl
  | cons f fs ih =>
    rw [List.foldl_cons]
    have hstep := pairUpdate_skip 0 false (CollisionSystem.setPos a f.1)
      (CollisionSystem.setPos b f.2) cA cB
      (by rw [setPos_collider]; exact hca) (by rw [setPos_collider]; exact hcb) hno
    simpa [hstep] using ih

/-- C8, witness: colliders on layers 1 and 2, each colliding only with
its own layer, run over a three frame overlap scenario: no pair state, no
events. -/
theorem c8_disjoint_layers_never_reported_witness :
    ({ id := 0, transform := some { x := 0, y := 0, rotation := 0 }, physics := none,
       collider := some { type := "circle", radius := 5, layer := 1,
                          collidesWith := [1], isTrigger := false },
       tags := [] } : Entity).collider =
      some { type := "circle", radius := 5, layer := 1,
             collidesWith := [1], isTrigger := false } ∧
    (2 : Int) ∉ ([1] : List Int) ∧
    CollisionSystem.runFrames
      { id := 0, transform := some { x := 0, y := 0, rotation := 0 }, physics := none,
        collider := some { type := "circle", radius := 5, layer := 1,
                           collidesWith := [1], isTrigger := false },
        tags := [] }
      { id := 1, transform := some { x := 0, y := 0, rotation := 0 }, physics := none,
        collider := some { type := "circle", radius := 5, layer := 2,
                           collidesWith := [2], isTrigger := false },
        tags := [] }
      [((0, 0), (1, 0)), ((0, 0), (2, 0)), ((0, 0), (100, 0))] = (false, []) := by
  refine ⟨rfl, by norm_num, ?_⟩
  exact c8_disjoint_layers_never_reported _ _
    { type := "circle", radius := 5, layer := 1, collidesWith := [1], isTrigger := false }
    { type := "circle", radius := 5, layer := 2, collidesWith := [2], isTrigger := false }
    rfl rfl (by norm_num) (by norm_num)
    [((0, 0), (1, 0)), ((0, 0), (2, 0)), ((0, 0), (100, 0))]

/-- C3, counterexample: in the exact scenario of the claim (one frame
apart, three consecutive overlapping frames, one frame apart, radius 5
circles) the engine fires the phases start, stay, stay, stay, end: three
stay callbacks, not the two the claim asserts. -/
theorem c3_stay_count_counterexample :
    (CollisionSystem.runFrames (circleEntity 0 0 0 5) (circleEntity 1 0 0 5)
      [((0, 0), (100, 0)), ((0, 0), (4, 0)), ((0, 0), (4, 0)), ((0, 0), (4, 0)),
       ((0, 0), (100, 0))]).2 = ["start", "stay", "stay", "stay", "end"] ∧
    ((CollisionSystem.runFrames (circleEntity 0 0 0 5) (circleEntity 1 0 0 5)
      [((0, 0), (100, 0)), ((0, 0), (4, 0)), ((0, 0), (4, 0)), ((0, 0), (4, 0)),
       ((0, 0), (100, 0))]).2.count "stay" = 3 ∧ (3 : Nat) ≠ 2) := by
  have h : (CollisionSystem.runFrames (circleEntity 0 0 0 5) (circleEntity 1 0 0 5)
      [((0, 0), (100, 0)), ((0, 0), (4, 0)), ((0, 0), (4, 0)), ((0, 0), (4, 0)),
       ((0, 0), (100, 0))]).2 = ["start", "stay", "stay", "stay", "end"] := by
    norm_num [CollisionSystem.runFrames, CollisionSystem.pairUpdate,
      CollisionSystem.setPos, CollisionSystem.checkCollision, circleEntity,
      Collider.canCollideWith, sqrtLt]
  refine ⟨h, ?_, by norm_num⟩
  rw [h]
  rfl

/-- C3 (amended): two interacting collider-bearing entities that are
apart for one frame, overlapping for three consecutive frames and then
apart again receive exactly one start callback, exactly THREE stay
callbacks (the transition frame falls through to stay, and each of the
two remaining overlap frames fires stay), and exactly one end callback,
in the order start, stay, stay, stay, end. -/
theorem c3_transition_sequence (a b : Entity) (cA cB : Collider)
    (f1 f2 f3 f4 f5 : (ℚ × ℚ) × (ℚ × ℚ))
    (hca : a.collider = some cA) (hcb : b.collider = some cB)
    (hcan : cA.canCollideWith cB = true)
    (h1 : CollisionSystem.checkCollision (CollisionSystem.setPos a f1.1)
            (CollisionSystem.setPos b f1.2) = false)
    (h2 : CollisionSystem.checkCollision (CollisionSystem.setPos a f2.1)
            (CollisionSystem.setPos b f2.2) = true)
    (h3 : CollisionSystem.checkCollision (CollisionSystem.setPos a f3.1)
            (CollisionSystem.setPos b f3.2) = true)
    (h4 : CollisionSystem.checkCollision (CollisionSystem.setPos a f4.1)
            (CollisionSystem.setPos b f4.2) = true)
    (h5 : CollisionSystem.checkCollision (CollisionSystem.setPos a f5.1)
            (CollisionSystem.setPos b f5.2) = false) :
    (CollisionSystem.runFrames a b [f1, f2, f3, f4, f5]).2 =
      ["start", "stay", "stay", "stay", "end"] ∧
    (CollisionSystem.runFrames a b [f1, f2, f3, f4, f5]).2.count "start" = 1 ∧
    (CollisionSystem.runFrames a b [f1, f2, f3, f4, f5]).2.count "stay" = 3 ∧
    (CollisionSystem.runFrames a b [f1, f2, f3, f4, f5]).2.count "end" = 1 := by
  have hs : ∀ (q : ℚ × ℚ) (r : ℚ × ℚ) (was : Bool),
      (CollisionSystem.pairUpdate 0 was (CollisionSystem.setPos a q)
        (CollisionSystem.setPos b r)).2 =
      if CollisionSystem.checkCollision (CollisionSystem.setPos a q)
           (CollisionSystem.setPos b r) then
        (true, (if ¬ was then ["start"] else []) ++ ["stay"])
      else (false, if was then ["end"] else []) := by
    intro q r was
    exact pairUpdate_state_events 0 was _ _ cA cB
      (by rw [setPos_collider]; exact hca) (by rw [setPos_collider]; exact hcb) hcan
  have hr : (CollisionSystem.runFrames a b [f1, f2, f3, f4, f5]).2 =
      ["start", "stay", "stay", "stay", "end"] := by
    rw [CollisionSystem.runFrames]
    simp only [List.foldl_cons, List.foldl_nil, hs, h1, h2, h3, h4, h5]
    simp
  refine ⟨hr, ?_, ?_, ?_⟩ <;> rw [hr] <;> rfl

/-- C3, witness: the theorem applied to the concrete scenario with circles
of radius 5 at distance 100 (apart), 4, 4, 4 (overlap), 100 (apart). -/
theorem c3_transition_sequence_witness :
    CollisionSystem.checkCollision
      (CollisionSystem.setPos (circleEntity 0 0 0 5) (0, 0))
      (CollisionSystem.setPos (circleEntity 1 0 0 5) (4, 0)) = true ∧
    (CollisionSystem.runFrames (circleEntity 0 0 0 5) (circleEntity 1 0 0 5)
      [((0, 0), (100, 0)), ((0, 0), (4, 0)), ((0, 0), (4, 0)), ((0, 0), (4, 0)),
       ((0, 0), (100, 0))]).2.count "stay" = 3 := by
  have hfar : CollisionSystem.checkCollision
      (CollisionSystem.setPos (circleEntity 0 0 0 5) (0, 0))
      (CollisionSystem.setPos (circleEntity 1 0 0 5) (100, 0)) = false := by
    norm_num [CollisionSystem.checkCollision, CollisionSystem.setPos, circleEntity, sqrtLt]
  have hnear : CollisionSystem.checkCollision
      (CollisionSystem.setPos (circleEntity 0 0 0 5) (0, 0))
      (CollisionSystem.setPos (circleEntity 1 0 0 5) (4, 0)) = true := by
    norm_num [CollisionSystem.checkCollision, CollisionSystem.setPos, circleEntity, sqrtLt]
  refine ⟨hnear, ?_⟩
  exact (c3_transition_sequence (circleEntity 0 0 0 5) (circleEntity 1 0 0 5)
    { type := "circle", radius := 5, layer := 0, collidesWith := [0], isTrigger := false }
    { type := "circle", radius := 5, layer := 0, collidesWith := [0], isTrigger := false }
    ((0, 0), (100, 0)) ((0, 0), (4, 0)) ((0, 0), (4, 0)) ((0, 0), (4, 0))
    ((0, 0), (100, 0)) rfl rfl rfl hfar hnear hnear hnear hfar).2.2.1

/-- C2, evaluation at the failing input: a colliding pair in which
collider A has isTrigger set and both entities carry Physics is still
physically resolved by the update loop of the collision system. The
update gate (CollisionSystem.js lines 183 to 185) tests only the presence
of the two Physics components and never consults isTrigger, contradicting
the documented contract of the trigger flag (Physics.js line 167:
generates events but does not physically collide). At the input below the
entity A velocity changes from 1 to 1 / 2 and its x position from 0 to
-1, even though its collider is a trigger. The half of the claim about
a missing Physics component does hold: the resolution call is gated on
both components being present. -/
theorem c2_trigger_pair_still_resolved :
    (({ id := 0, transform := some { x := 0, y := 0, rotation := 0 },
        physics := some { velocityX := 1, velocityY := 0, rotationVelocity := 0,
                          friction := 0, bounceX := 0, bounceY := 0,
                          bounds := none, mass := 1 },
        collider := some { type := "circle", radius := 5, layer := 0,
                           collidesWith := [0], isTrigger := true },
        tags := [] } : Entity).collider.map Collider.isTrigger) = some true ∧
    CollisionSystem.checkCollision
      { id := 0, transform := some { x := 0, y := 0, rotation := 0 },
        physics := some { velocityX := 1, velocityY := 0, rotationVelocity := 0,
                          friction := 0, bounceX := 0, bounceY := 0,
                          bounds := none, mass := 1 },
        collider := some { type := "circle", radius := 5, layer := 0,
                           collidesWith := [0], isTrigger := true },
        tags := [] }
      { id := 1, transform := some { x := 6, y := 0, rotation := 0 },
        physics := some { velocityX := 0, velocityY := 0, rotationVelocity := 0,
                          friction := 0, bounceX := 0, bounceY := 0,
                          bounds := none, mass := 1 },
        collider := some { type := "circle", radius := 5, layer := 0,
                           collidesWith := [0], isTrigger := false },
        tags := [] } = true ∧
    ((CollisionSystem.pairUpdate 6 false
      { id := 0, transform := some { x := 0, y := 0, rotation := 0 },
        physics := some { velocityX := 1, velocityY := 0, rotationVelocity := 0,
                          friction := 0, bounceX := 0, bounceY := 0,
                          bounds := none, mass := 1 },
        collider := some { type := "circle", radius := 5, layer := 0,
                           collidesWith := [0], isTrigger := true },
        tags := [] }
      { id := 1, transform := some { x := 6, y := 0, rotation := 0 },
        physics := some { velocityX := 0, velocityY := 0, rotationVelocity := 0,
                          friction := 0, bounceX := 0, bounceY := 0,
                          bounds := none, mass := 1 },
        collider := some { type := "circle", radius := 5, layer := 0,
                           collidesWith := [0], isTrigger := false },
        tags := [] }).1.1.physics.map Physics.velocityX) = some (1 / 2) ∧
    ((CollisionSystem.pairUpdate 6 false
      { id := 0, transform := some { x := 0, y := 0, rotation := 0 },
        physics := some { velocityX := 1, velocityY := 0, rotationVelocity := 0,
                          friction := 0, bounceX := 0, bounceY := 0,
                          bounds := none, mass := 1 },
        collider := some { type := "circle", radius := 5, layer := 0,
                           collidesWith := [0], isTrigger := true },
        tags := [] }
      { id := 1, transform := some { x := 6, y := 0, rotation := 0 },
        physics := some { velocityX := 0, velocityY := 0, rotationVelocity := 0,
                          friction := 0, bounceX := 0, bounceY := 0,
                          bounds := none, mass := 1 },
        collider := some { type := "circle", radius := 5, layer := 0,
                           collidesWith := [0], isTrigger := false },
        tags := [] }).1.1.transform.map Transform.x) = some (-1) ∧
    (1 : ℚ) ≠ 1 / 2 ∧ (0 : ℚ) ≠ -1 := by
  refine ⟨rfl, ?_, ?_, ?_, by norm_num, by norm_num⟩
  · norm_num [CollisionSystem.checkCollision, sqrtLt]
  · norm_num [CollisionSystem.pairUpdate, CollisionSystem.checkCollision,
      CollisionSystem.resolveCollision, CollisionSystem.massOr1,
      Collider.canCollideWith, sqrtLt]
  · norm_num [CollisionSystem.pairUpdate, CollisionSystem.checkCollision,
      CollisionSystem.resolveCollision, CollisionSystem.massOr1,
      Collider.canCollideWith, sqrtLt]

theorem find?_map_comm {α : Type} (g : α → α) (p : α → Bool) (hp : ∀ a, p (g a) = p a)
    (l : List α) : (l.map g).find? p = (l.find? p).map g := by
  induction l with
  | nil => rfl
  | cons a l ih =>
    simp only [List.map_cons, List.find?]
    rw [hp a]
    cases h : p a <;> simp [ih]

theorem foldl_unregisterComponent (l : List String) (w : World) (id : Nat) :
    l.foldl (fun acc t => acc.unregisterComponent t id) w =
      { w with componentEntities := l.foldl (fun m t => idxRemove m t id) w.componentEntities } := by
  induction l generalizing w with
  | nil => rfl
  | cons t l ih =>
    rw [List.foldl_cons, List.foldl_cons, ih]
    rfl

theorem foldl_unregisterTag (l : List String) (w : World) (id : Nat) :
    l.foldl (fun acc g => acc.unregisterTag g id) w =
      { w with taggedEntities := l.foldl (fun m g => idxRemove m g id) w.taggedEntities } := by
  induction l generalizing w with
  | nil => rfl
  | cons t l ih =>
    rw [List.foldl_cons, List.foldl_cons, ih]
    rfl

theorem entityDestroy_eq (w : World) (id : Nat) (e : EEntity)
    (h : w.findObj id = some e) (hd : e.destroyed = false) :
    w.entityDestroy id =
      ({ objects := w.objects.map (fun e0 =>
            if e0.eid = id then { e0 with comps := [], etags := [], destroyed := true } else e0),
         alive := w.alive.erase id,
         counter := w.counter,
         componentEntities := e.comps.foldl (fun m t => idxRemove m t id) w.componentEntities,
         taggedEntities := e.etags.foldl (fun m g => idxRemove m g id) w.taggedEntities },
       e.comps.length) := by
  simp only [World.entityDestroy, h, hd, Bool.false_eq_true, if_false]
  rw [foldl_unregisterComponent, foldl_unregisterTag]
  rfl

theorem findObj_entityDestroy_self (w : World) (id : Nat) :
    ∀ e2, ((w.entityDestroy id).1.findObj id) = some e2 → e2.destroyed = true := by
  intro e2 h2
  cases h : w.findObj id with
  | none =>
    simp only [World.entityDestroy, h] at h2
    cases h2
  | some e =>
    cases hd : e.destroyed with
    | true =>
      simp only [World.entityDestroy, h, hd, if_true] at h2
      cases h2
      exact hd
    | false =>
      rw [entityDestroy_eq w id e h hd] at h2
      have hcomm := find?_map_comm
        (fun e0 => if e0.eid = id then { e0 with comps := [], etags := [], destroyed := true } else e0)
        (fun e0 => e0.eid == id)
        (by
          intro a
          by_cases ha : a.eid = id <;> simp [ha])
        w.objects
      rw [World.findObj] at h2
      rw [hcomm] at h2
      rw [World.findObj] at h
      rw [h] at h2
      have he := List.find?_some h
      have heq : e.eid = id := by simpa using he
      simp only [Option.map_some', heq, if_pos rfl] at h2
      cases h2
      rfl

/-- C4: entity destruction is idempotent. Both through Entity.destroy and
through World.destroyEntity, a second destruction of the same id leaves
the world exactly as it was after the first and fires zero component
detach hooks. -/
theorem c4_destroy_idempotent (w : World) (id : Nat) :
    (w.entityDestroy id).1.entityDestroy id = ((w.entityDestroy id).1, 0) ∧
    (w.destroyEntity id).1.destroyEntity id = ((w.destroyEntity id).1, 0) := by
  have key : ∀ v : World, (∀ e2, v.findObj id = some e2 → e2.destroyed = true) →
      v.entityDestroy id = (v, 0) := by
    intro v hv
    cases h : v.findObj id with
    | none => simp only [World.entityDestroy, h]
    | some e2 => simp only [World.entityDestroy, h, hv e2 h, if_true]
  have part1 : (w.entityDestroy id).1.entityDestroy id = ((w.entityDestroy id).1, 0) :=
    key _ (findObj_entityDestroy_self w id)
  refine ⟨part1, ?_⟩
  by_cases hid : id ∈ w.alive
  · have hw : w.destroyEntity id = w.entityDestroy id := by
      rw [World.destroyEntity, if_pos hid]
    rw [hw]
    rw [World.destroyEntity]
    by_cases hid2 : id ∈ (w.entityDestroy id).1.alive
    · rw [if_pos hid2]
      exact part1
    · rw [if_neg hid2]
  · have hw : w.destroyEntity id = (w, 0) := by
      rw [World.destroyEntity, if_neg hid]
    rw [hw]
    show w.destroyEntity id = (w, 0)
    exact hw

theorem idxLookup_cons_self (p : String × List Nat) (rest : List (String × List Nat))
    (k : String) (h : p.1 = k) : idxLookup (p :: rest) k = p.2 := by
  rw [idxLookup, List.find?_cons_of_pos]
  simp [h]

theorem idxLookup_cons_ne (p : String × List Nat) (rest : List (String × List Nat))
    (k : String) (h : ¬ p.1 = k) : idxLookup (p :: rest) k = idxLookup rest k := by
  rw [idxLookup, List.find?_cons_of_neg]
  · rfl
  · simpa using h

theorem idxLookup_eq_nil_of_not_mem_keys (m : List (String × List Nat)) (k : String)
    (h : k ∉ m.map Prod.fst) : idxLookup m k = [] := by
  induction m with
  | nil => rfl
  | cons p rest ih =>
    simp only [List.map_cons, List.mem_cons, not_or] at h
    rw [idxLookup_cons_ne p rest k (fun hh => h.1 hh.symm)]
    exact ih h.2

theorem idxLookup_idxAdd_self (m : List (String × List Nat)) (k : String) (v : Nat) :
    idxLookup (idxAdd m k v) k =
      (if v ∈ idxLookup m k then idxLookup m k else idxLookup m k ++ [v]) := by
  induction m with
  | nil =>
    rw [idxAdd, idxLookup_cons_self (k, [v]) [] k rfl]
    simp [idxLookup]
  | cons p rest ih =>
    by_cases h : p.1 = k
    · rw [idxAdd, if_pos h,
        idxLookup_cons_self (p.1, if v ∈ p.2 then p.2 else p.2 ++ [v]) rest k h,
        idxLookup_cons_self p rest k h]
    · rw [idxAdd, if_neg h, idxLookup_cons_ne p (idxAdd rest k v) k h,
        idxLookup_cons_ne p rest k h]
      exact ih

theorem idxLookup_idxAdd_ne (m : List (String × List Nat)) (k k' : String) (v : Nat)
    (h : k' ≠ k) : idxLookup (idxAdd m k v) k' = idxLookup m k' := by
  induction m with
  | nil =>
    rw [idxAdd, idxLookup_cons_ne (k, [v]) [] k' (fun hh => h hh.symm)]
  | cons p rest ih =>
    by_cases hp : p.1 = k
    · have hp' : ¬ p.1 = k' := fun hh => h (hh ▸ hp ▸ rfl)
      rw [idxAdd, if_pos hp,
        idxLookup_cons_ne (p.1, if v ∈ p.2 then p.2 else p.2 ++ [v]) rest k' hp',
        idxLookup_cons_ne p rest k' hp']
    · by_cases hp' : p.1 = k'
      · rw [idxAdd, if_neg hp, idxLookup_cons_self p (idxAdd rest k v) k' hp',
          idxLookup_cons_self p rest k' hp']
      · rw [idxAdd, if_neg hp, idxLookup_cons_ne p (idxAdd rest k v) k' hp',
          idxLookup_cons_ne p rest k' hp']
        exact ih

theorem idxLookup_idxRemove_ne (m : List (String × List Nat)) (k k' : String) (v : Nat)
    (h : k' ≠ k) : idxLookup (idxRemove m k v) k' = idxLookup m k' := by
  induction m with
  | nil => rfl
  | cons p rest ih =>
    by_cases hp : p.1 = k
    · have hp' : ¬ p.1 = k' := fun hh => h (hh ▸ hp ▸ rfl)
      rw [idxRemove, if_pos hp]
      by_cases hl : p.2.erase v = []
      · rw [if_pos hl, idxLookup_cons_ne p rest k' hp']
      · rw [if_neg hl, idxLookup_cons_ne (p.1, p.2.erase v) rest k' hp',
          idxLookup_cons_ne p rest k' hp']
    · by_cases hp' : p.1 = k'
      · rw [idxRemove, if_neg hp, idxLookup_cons_self p (idxRemove rest k v) k' hp',
          idxLookup_cons_self p rest k' hp']
      · rw [idxRemove, if_neg hp, idxLookup_cons_ne p (idxRemove rest k v) k' hp',
          idxLookup_cons_ne p rest k' hp']
        exact ih

theorem idxLookup_idxRemove_self (m : List (String × List Nat)) (k : String) (v : Nat)
    (hk : (m.map Prod.fst).Nodup) :
    idxLookup (idxRemove m k v) k = (idxLookup m k).erase v := by
  induction m with
  | nil => rfl
  | cons p rest ih =>
    simp only [List.map_cons, List.nodup_cons] at hk
    by_cases hp : p.1 = k
    · rw [idxRemove, if_pos hp]
      have hrest : idxLookup rest k = [] :=
        idxLookup_eq_nil_of_not_mem_keys rest k (hp ▸ hk.1)
      rw [idxLookup_cons_self p rest k hp]
      by_cases hl : p.2.erase v = []
      · rw [if_pos hl, hrest, hl]
      · rw [if_neg hl, idxLookup_cons_self (p.1, p.2.erase v) rest k hp]
    · rw [idxRemove, if_neg hp, idxLookup_cons_ne p (idxRemove rest k v) k hp,
        idxLookup_cons_ne p rest k hp]
      exact ih hk.2

theorem mem_idxLookup_idxAdd (m : List (String × List Nat)) (k k' : String) (v v' : Nat)
    (h : v' ∈ idxLookup (idxAdd m k v) k') : v' ∈ idxLookup m k' ∨ v' = v := by
  by_cases hk : k' = k
  · subst hk
    rw [idxLookup_idxAdd_self] at h
    by_cases hv : v ∈ idxLookup m k'
    · rw [if_pos hv] at h
      exact Or.inl h
    · rw [if_neg hv] at h
      rcases List.mem_append.mp h with h1 | h2
      · exact Or.inl h1
      · simp at h2
        exact Or.inr h2
  · rw [idxLookup_idxAdd_ne m k k' v hk] at h
    exact Or.inl h

theorem mem_idxAdd_of_mem (m : List (String × List Nat)) (k k' : String) (v v' : Nat)
    (h : v' ∈ idxLookup m k') : v' ∈ idxLookup (idxAdd m k v) k' := by
  by_cases hk : k' = k
  · subst hk
    rw [idxLookup_idxAdd_self]
    by_cases hv : v ∈ idxLookup m k'
    · rwa [if_pos hv]
    · rw [if_neg hv]
      exact List.mem_append_left _ h
  · rwa [idxLookup_idxAdd_ne m k k' v hk]

theorem self_mem_idxAdd (m : List (String × List Nat)) (k : String) (v : Nat) :
    v ∈ idxLookup (idxAdd m k v) k := by
  rw [idxLookup_idxAdd_self]
  by_cases hv : v ∈ idxLookup m k
  · rwa [if_pos hv]
  · rw [if_neg hv]
    simp

theorem mem_idxLookup_idxRemove (m : List (String × List Nat)) (k k' : String) (v v' : Nat)
    (hk : (m.map Prod.fst).Nodup) (h : v' ∈ idxLookup (idxRemove m k v) k') :
    v' ∈ idxLookup m k' := by
  by_cases hkk : k' = k
  · subst hkk
    rw [idxLookup_idxRemove_self m k' v hk] at h
    exact List.mem_of_mem_erase h
  · rwa [idxLookup_idxRemove_ne m k k' v hkk] at h

theorem keys_idxAdd (m : List (String × List Nat)) (k : String) (v : Nat) :
    (idxAdd m k v).map Prod.fst =
      (if k ∈ m.map Prod.fst then m.map Prod.fst else m.map Prod.fst ++ [k]) := by
  induction m with
  | nil => simp [idxAdd]
  | cons p rest ih =>
    by_cases hp : p.1 = k
    · rw [idxAdd, if_pos hp]
      simp [hp]
    · rw [idxAdd, if_neg hp]
      simp only [List.map_cons, List.mem_cons, ih]
      by_cases hm : k ∈ rest.map Prod.fst <;>
        simp [hm, hp, Ne.symm hp, List.cons_append]

theorem keys_idxAdd_nodup (m : List (String × List Nat)) (k : String) (v : Nat)
    (h : (m.map Prod.fst).Nodup) : ((idxAdd m k v).map Prod.fst).Nodup := by
  rw [keys_idxAdd]
  by_cases hm : k ∈ m.map Prod.fst
  · rwa [if_pos hm]
  · rw [if_neg hm]
    simp [List.nodup_append, h, hm]

theorem keys_idxRemove_sublist (m : List (String × List Nat)) (k : String) (v : Nat) :
    ((idxRemove m k v).map Prod.fst).Sublist (m.map Prod.fst) := by
  induction m with
  | nil => simp [idxRemove]
  | cons p rest ih =>
    by_cases hp : p.1 = k
    · rw [idxRemove, if_pos hp]
      by_cases hl : p.2.erase v = []
      · rw [if_pos hl]
        simp only [List.map_cons]
        exact List.sublist_cons_self _ _
      · rw [if_neg hl]
        simp
    · rw [idxRemove, if_neg hp]
      simp only [List.map_cons]
      exact List.Sublist.cons₂ _ ih

theorem keys_idxRemove_nodup (m : List (String × List Nat)) (k : String) (v : Nat)
    (h : (m.map Prod.fst).Nodup) : ((idxRemove m k v).map Prod.fst).Nodup :=
  (keys_idxRemove_sublist m k v).nodup h

theorem findObj_mem (w : World) (id : Nat) (e : EEntity) (h : w.findObj id = some e) :
    e ∈ w.objects ∧ e.eid = id := by
  rw [World.findObj] at h
  exact ⟨List.mem_of_find?_eq_some h, by simpa using List.find?_some h⟩

theorem findObj_none (w : World) (id : Nat) (h : w.findObj id = none) :
    ∀ e ∈ w.objects, e.eid ≠ id := by
  rw [World.findObj] at h
  intro e he
  have hh := List.find?_eq_none.mp h e he
  simpa using hh

theorem eid_inj (w : World) (hn : (w.objects.map EEntity.eid).Nodup)
    (e e' : EEntity) (he : e ∈ w.objects) (he' : e' ∈ w.objects) (h : e.eid = e'.eid) :
    e = e' :=
  List.inj_on_of_nodup_map hn he he' h

theorem findObj_of_mem (w : World) (hn : (w.objects.map EEntity.eid).Nodup)
    (e : EEntity) (he : e ∈ w.objects) : w.findObj e.eid = some e := by
  cases h : w.findObj e.eid with
  | none => exact absurd rfl (findObj_none w e.eid h e he)
  | some e' =>
    obtain ⟨he', heq⟩ := findObj_mem w e.eid e' h
    rw [eid_inj w hn e' e he' he heq]

theorem eids_updateObj (w : World) (id : Nat) (f : EEntity → EEntity)
    (hf : ∀ e, (f e).eid = e.eid) :
    (w.updateObj id f).objects.map EEntity.eid = w.objects.map EEntity.eid := by
  simp only [World.updateObj, List.map_map]
  apply List.map_congr_left
  intro e _
  by_cases he : e.eid = id <;> simp [he, hf]

theorem mem_updateObj (w : World) (id : Nat) (f : EEntity → EEntity) (e' : EEntity)
    (h : e' ∈ (w.updateObj id f).objects) :
    ∃ e ∈ w.objects, e' = if e.eid = id then f e else e := by
  simp only [World.updateObj, List.mem_map] at h
  obtain ⟨e, he, heq⟩ := h
  exact ⟨e, he, heq.symm⟩

theorem mem_updateObj_of_mem (w : World) (id : Nat) (f : EEntity → EEntity) (e : EEntity)
    (h : e ∈ w.objects) :
    (if e.eid = id then f e else e) ∈ (w.updateObj id f).objects := by
  simp only [World.updateObj, List.mem_map]
  exact ⟨e, h, rfl⟩

theorem findObj_updateObj_self (w : World) (id : Nat) (f : EEntity → EEntity)
    (hf : ∀ e, (f e).eid = e.eid) :
    (w.updateObj id f).findObj id =
      (w.findObj id).map (fun e => if e.eid = id then f e else e) := by
  simp only [World.findObj, World.updateObj]
  rw [find?_map_comm _ _ (fun a => by by_cases ha : a.eid = id <;> simp [ha, hf])]

theorem findObj_updateObj_ne (w : World) (id id' : Nat) (f : EEntity → EEntity)
    (hf : ∀ e, (f e).eid = e.eid) (hne : id' ≠ id) :
    (w.updateObj id f).findObj id' = w.findObj id' := by
  simp only [World.findObj, World.updateObj]
  rw [find?_map_comm _ _ (fun a => by by_cases ha : a.eid = id <;> simp [ha, hf])]
  cases h : w.objects.find? (fun e => e.eid == id') with
  | none => rfl
  | some e =>
    have heq : e.eid = id' := by simpa using List.find?_some h
    have : ¬ e.eid = id := by rw [heq]; exact hne
    simp [this]

theorem winv_init : WInv World.init := by
  constructor <;> simp [World.init, idxLookup]

theorem winv_createEntity (w : World) (hw : WInv w) : WInv w.createEntity := by
  refine ⟨?_, ?_, ?_, ?_, ?_, ?_, ?_, ?_, ?_, ?_, ?_, ?_, ?_, ?_, ?_⟩
  · simp only [World.createEntity, List.map_append, List.map_cons, List.map_nil]
    refine List.Nodup.append hw.objNodup (List.nodup_singleton _) ?_
    intro a ha hb
    simp only [List.mem_singleton] at hb
    subst hb
    obtain ⟨e, he, heq⟩ := List.mem_map.mp ha
    exact absurd (heq ▸ hw.objLt e he) (lt_irrefl _)
  · intro e he
    simp only [World.createEntity, List.mem_append, List.mem_singleton] at he
    rcases he with he | he
    · exact Nat.lt_trans (hw.objLt e he) (Nat.lt_succ_self _)
    · subst he
      exact Nat.lt_succ_self _
  · refine List.Nodup.append hw.aliveNodup (List.nodup_singleton _) ?_
    intro a ha hb
    simp only [List.mem_singleton] at hb
    subst hb
    obtain ⟨e, _, heq, _⟩ := hw.aliveObj _ ha
    exact absurd (heq ▸ hw.objLt e (by assumption)) (lt_irrefl _)
  · intro id hid
    simp only [World.createEntity, List.mem_append, List.mem_singleton] at hid
    rcases hid with hid | hid
    · obtain ⟨e, he, heq, hd⟩ := hw.aliveObj id hid
      exact ⟨e, List.mem_append_left _ he, heq, hd⟩
    · subst hid
      exact ⟨_, List.mem_append_right _ (List.mem_singleton_self _), rfl, rfl⟩
  · intro e he hd
    simp only [World.createEntity, List.mem_append, List.mem_singleton] at he
    rcases he with he | he
    · exact List.mem_append_left _ (hw.objAlive e he hd)
    · subst he
      exact List.mem_append_right _ (List.mem_singleton_self _)
  · intro e he
    simp only [World.createEntity, List.mem_append, List.mem_singleton] at he
    rcases he with he | he
    · exact hw.compsNodup e he
    · subst he
      exact List.nodup_nil
  · intro e he
    simp only [World.createEntity, List.mem_append, List.mem_singleton] at he
    rcases he with he | he
    · exact hw.etagsNodup e he
    · subst he
      exact List.nodup_nil
  · exact hw.compKeys
  · exact hw.tagKeys
  · exact hw.compEntries
  · exact hw.tagEntries
  · intro t id hmem
    obtain ⟨e, he, h⟩ := hw.compRev t id hmem
    exact ⟨e, List.mem_append_left _ he, h⟩
  · intro g id hmem
    obtain ⟨e, he, h⟩ := hw.tagRev g id hmem
    exact ⟨e, List.mem_append_left _ he, h⟩
  · intro e he hd t ht
    simp only [World.createEntity, List.mem_append, List.mem_singleton] at he
    rcases he with he | he
    · exact hw.compFwd e he hd t ht
    · subst he
      cases ht
  · intro e he hd g hg
    simp only [World.createEntity, List.mem_append, List.mem_singleton] at he
    rcases he with he | he
    · exact hw.tagFwd e he hd g hg
    · subst he
      cases hg

theorem winv_attach_comp (w : World) (i : Nat) (t : String) (e : EEntity)
    (hw : WInv w) (he : w.findObj i = some e) (hd : e.destroyed = false)
    (ht : t ∉ e.comps) :
    WInv ((w.updateObj i
      (fun e0 => { e0 with comps := e0.comps ++ [t] })).registerComponent t i) := by
  obtain ⟨heo, heid⟩ := findObj_mem w i e he
  have huniq : ∀ e0 ∈ w.objects, e0.eid = i → e0 = e := fun e0 h0 hid0 =>
    eid_inj w hw.objNodup e0 e h0 heo (hid0.trans heid.symm)
  refine ⟨?_, ?_, ?_, ?_, ?_, ?_, ?_, ?_, ?_, ?_, ?_, ?_, ?_, ?_, ?_⟩
  · exact (eids_updateObj w i (fun e0 => { e0 with comps := e0.comps ++ [t] }) (fun _ => rfl)) ▸ hw.objNodup
  · intro e' he'
    obtain ⟨e0, h0, heq⟩ := mem_updateObj w i _ e' he'
    subst heq
    by_cases h : e0.eid = i
    · rw [if_pos h]
      exact hw.objLt e0 h0
    · rw [if_neg h]
      exact hw.objLt e0 h0
  · exact hw.aliveNodup
  · intro i' hid'
    obtain ⟨e0, h0, heq, hdes⟩ := hw.aliveObj i' hid'
    refine ⟨if e0.eid = i then { e0 with comps := e0.comps ++ [t] } else e0,
      mem_updateObj_of_mem w i _ e0 h0, ?_, ?_⟩
    · by_cases h : e0.eid = i
      · rw [if_pos h]
        exact heq
      · rw [if_neg h]
        exact heq
    · by_cases h : e0.eid = i
      · rw [if_pos h]
        exact hdes
      · rw [if_neg h]
        exact hdes
  · intro e' he' hdes
    obtain ⟨e0, h0, heq⟩ := mem_updateObj w i _ e' he'
    subst heq
    by_cases h : e0.eid = i
    · rw [if_pos h] at hdes ⊢
      exact hw.objAlive e0 h0 hdes
    · rw [if_neg h] at hdes ⊢
      exact hw.objAlive e0 h0 hdes
  · intro e' he'
    obtain ⟨e0, h0, heq⟩ := mem_updateObj w i _ e' he'
    subst heq
    by_cases h : e0.eid = i
    · rw [if_pos h]
      have he0 : e0 = e := huniq e0 h0 h
      subst he0
      show (e0.comps ++ [t]).Nodup
      simp [List.nodup_append, hw.compsNodup e0 h0, ht]
    · rw [if_neg h]
      exact hw.compsNodup e0 h0
  · intro e' he'
    obtain ⟨e0, h0, heq⟩ := mem_updateObj w i _ e' he'
    subst heq
    by_cases h : e0.eid = i
    · rw [if_pos h]
      exact hw.etagsNodup e0 h0
    · rw [if_neg h]
      exact hw.etagsNodup e0 h0
  · exact keys_idxAdd_nodup _ t i hw.compKeys
  · exact hw.tagKeys
  · intro t'
    show (idxLookup (idxAdd w.componentEntities t i) t').Nodup
    by_cases hk : t' = t
    · subst hk
      rw [idxLookup_idxAdd_self]
      by_cases hv : i ∈ idxLookup w.componentEntities t'
      · rw [if_pos hv]
        exact hw.compEntries t'
      · rw [if_neg hv]
        simp [List.nodup_append, hw.compEntries t', hv]
    · rw [idxLookup_idxAdd_ne _ t t' i hk]
      exact hw.compEntries t'
  · exact hw.tagEntries
  · intro t' i' hmem
    have hmem' : i' ∈ idxLookup (idxAdd w.componentEntities t i) t' := hmem
    have hwit : ∀ e0 ∈ w.objects, e0.eid = i' → e0.destroyed = false → t' ∈ e0.comps →
        ∃ e2 ∈ ((w.updateObj i
          (fun e0 => { e0 with comps := e0.comps ++ [t] })).registerComponent t i).objects,
          e2.eid = i' ∧ e2.destroyed = false ∧ t' ∈ e2.comps := by
      intro e0 h0 heq0 hd0 ht0
      refine ⟨if e0.eid = i then { e0 with comps := e0.comps ++ [t] } else e0,
        mem_updateObj_of_mem w i _ e0 h0, ?_⟩
      by_cases h : e0.eid = i
      · rw [if_pos h]
        exact ⟨heq0, hd0, List.mem_append_left _ ht0⟩
      · rw [if_neg h]
        exact ⟨heq0, hd0, ht0⟩
    by_cases hk : t' = t
    · subst hk
      rw [idxLookup_idxAdd_self] at hmem'
      have hcases : i' ∈ idxLookup w.componentEntities t' ∨ i' = i := by
        by_cases hv : i ∈ idxLookup w.componentEntities t'
        · rw [if_pos hv] at hmem'
          exact Or.inl hmem'
        · rw [if_neg hv] at hmem'
          rcases List.mem_append.mp hmem' with h1 | h2
          · exact Or.inl h1
          · simp only [List.mem_singleton] at h2
            exact Or.inr h2
      rcases hcases with hold | hnew
      · obtain ⟨e0, h0, heq0, hd0, ht0⟩ := hw.compRev t' i' hold
        exact hwit e0 h0 heq0 hd0 ht0
      · refine ⟨{ e with comps := e.comps ++ [t'] }, ?_,
          by rw [heid]; exact hnew.symm, hd, by simp⟩
        have hm := mem_updateObj_of_mem w i
          (fun e0 => { e0 with comps := e0.comps ++ [t'] }) e heo
        rwa [if_pos heid] at hm
    · rw [idxLookup_idxAdd_ne _ t t' i hk] at hmem'
      obtain ⟨e0, h0, heq0, hd0, ht0⟩ := hw.compRev t' i' hmem'
      exact hwit e0 h0 heq0 hd0 ht0
  · intro g' i' hmem
    obtain ⟨e0, h0, heq0, hd0, hg0⟩ := hw.tagRev g' i' hmem
    refine ⟨if e0.eid = i then { e0 with comps := e0.comps ++ [t] } else e0,
      mem_updateObj_of_mem w i _ e0 h0, ?_⟩
    by_cases h : e0.eid = i
    · rw [if_pos h]
      exact ⟨heq0, hd0, hg0⟩
    · rw [if_neg h]
      exact ⟨heq0, hd0, hg0⟩
  · intro e' he' hdes t' ht'
    obtain ⟨e0, h0, heq⟩ := mem_updateObj w i _ e' he'
    subst heq
    by_cases h : e0.eid = i
    · have he0 : e0 = e := huniq e0 h0 h
      subst he0
      rw [if_pos h] at hdes ht' ⊢
      show e0.eid ∈ idxLookup (idxAdd w.componentEntities t i) t'
      rcases List.mem_append.mp ht' with h1 | h2
      · exact mem_idxAdd_of_mem _ t t' i e0.eid (hw.compFwd e0 h0 hdes t' h1)
      · simp only [List.mem_singleton] at h2
        subst h2
        rw [h]
        exact self_mem_idxAdd _ t' i
    · rw [if_neg h] at hdes ht' ⊢
      show e0.eid ∈ idxLookup (idxAdd w.componentEntities t i) t'
      exact mem_idxAdd_of_mem _ t t' i e0.eid (hw.compFwd e0 h0 hdes t' ht')
  · intro e' he' hdes g' hg'
    obtain ⟨e0, h0, heq⟩ := mem_updateObj w i _ e' he'
    subst heq
    by_cases h : e0.eid = i
    · rw [if_pos h] at hdes hg' ⊢
      exact hw.tagFwd e0 h0 hdes g' hg'
    · rw [if_neg h] at hdes hg' ⊢
      exact hw.tagFwd e0 h0 hdes g' hg'

theorem winv_detach_comp (w : World) (i : Nat) (t : String) (e : EEntity)
    (hw : WInv w) (he : w.findObj i = some e) (hd : e.destroyed = false)
    (ht : t ∈ e.comps) :
    WInv ((w.updateObj i
      (fun e0 => { e0 with comps := e0.comps.erase t })).unregisterComponent t i) := by
  obtain ⟨heo, heid⟩ := findObj_mem w i e he
  have huniq : ∀ e0 ∈ w.objects, e0.eid = i → e0 = e := fun e0 h0 hid0 =>
    eid_inj w hw.objNodup e0 e h0 heo (hid0.trans heid.symm)
  refine ⟨?_, ?_, ?_, ?_, ?_, ?_, ?_, ?_, ?_, ?_, ?_, ?_, ?_, ?_, ?_⟩
  · exact (eids_updateObj w i (fun e0 => { e0 with comps := e0.comps.erase t })
      (fun _ => rfl)) ▸ hw.objNodup
  · intro e' he'
    obtain ⟨e0, h0, heq⟩ := mem_updateObj w i _ e' he'
    subst heq
    by_cases h : e0.eid = i
    · rw [if_pos h]
      exact hw.objLt e0 h0
    · rw [if_neg h]
      exact hw.objLt e0 h0
  · exact hw.aliveNodup
  · intro i' hi'
    obtain ⟨e0, h0, heq, hdes⟩ := hw.aliveObj i' hi'
    refine ⟨if e0.eid = i then { e0 with comps := e0.comps.erase t } else e0,
      mem_updateObj_of_mem w i _ e0 h0, ?_, ?_⟩
    · by_cases h : e0.eid = i
      · rw [if_pos h]
        exact heq
      · rw [if_neg h]
        exact heq
    · by_cases h : e0.eid = i
      · rw [if_pos h]
        exact hdes
      · rw [if_neg h]
        exact hdes
  · intro e' he' hdes
    obtain ⟨e0, h0, heq⟩ := mem_updateObj w i _ e' he'
    subst heq
    by_cases h : e0.eid = i
    · rw [if_pos h] at hdes ⊢
      exact hw.objAlive e0 h0 hdes
    · rw [if_neg h] at hdes ⊢
      exact hw.objAlive e0 h0 hdes
  · intro e' he'
    obtain ⟨e0, h0, heq⟩ := mem_updateObj w i _ e' he'
    subst heq
    by_cases h : e0.eid = i
    · rw [if_pos h]
      exact (hw.compsNodup e0 h0).erase t
    · rw [if_neg h]
      exact hw.compsNodup e0 h0
  · intro e' he'
    obtain ⟨e0, h0, heq⟩ := mem_updateObj w i _ e' he'
    subst heq
    by_cases h : e0.eid = i
    · rw [if_pos h]
      exact hw.etagsNodup e0 h0
    · rw [if_neg h]
      exact hw.etagsNodup e0 h0
  · exact keys_idxRemove_nodup _ t i hw.compKeys
  · exact hw.tagKeys
  · intro t'
    show (idxLookup (idxRemove w.componentEntities t i) t').Nodup
    by_cases hk : t' = t
    · subst hk
      rw [idxLookup_idxRemove_self _ t' i hw.compKeys]
      exact (hw.compEntries t').erase i
    · rw [idxLookup_idxRemove_ne _ t t' i hk]
      exact hw.compEntries t'
  · exact hw.tagEntries
  · intro t' i' hmem
    have hmem' : i' ∈ idxLookup w.componentEntities t' :=
      mem_idxLookup_idxRemove _ t t' i i' hw.compKeys hmem
    obtain ⟨e0, h0, heq0, hd0, ht0⟩ := hw.compRev t' i' hmem'
    refine ⟨if e0.eid = i then { e0 with comps := e0.comps.erase t } else e0,
      mem_updateObj_of_mem w i _ e0 h0, ?_⟩
    by_cases h : e0.eid = i
    · rw [if_pos h]
      refine ⟨heq0, hd0, ?_⟩
      have he0 : e0 = e := huniq e0 h0 h
      have hne : t' ≠ t := by
        intro hkk
        subst hkk
        have hii : i' = i := heq0 ▸ h.symm ▸ rfl
        subst hii
        have hmem2 : i' ∈ idxLookup (idxRemove w.componentEntities t' i') t' := hmem
        rw [idxLookup_idxRemove_self _ t' i' hw.compKeys] at hmem2
        exact absurd rfl (((hw.compEntries t').mem_erase_iff.mp hmem2).1)
      exact (List.mem_erase_of_ne hne).mpr ht0
    · rw [if_neg h]
      exact ⟨heq0, hd0, ht0⟩
  · intro g' i' hmem
    obtain ⟨e0, h0, heq0, hd0, hg0⟩ := hw.tagRev g' i' hmem
    refine ⟨if e0.eid = i then { e0 with comps := e0.comps.erase t } else e0,
      mem_updateObj_of_mem w i _ e0 h0, ?_⟩
    by_cases h : e0.eid = i
    · rw [if_pos h]
      exact ⟨heq0, hd0, hg0⟩
    · rw [if_neg h]
      exact ⟨heq0, hd0, hg0⟩
  · intro e' he' hdes t' ht'
    obtain ⟨e0, h0, heq⟩ := mem_updateObj w i _ e' he'
    subst heq
    show (if e0.eid = i then ({ e0 with comps := e0.comps.erase t } : EEntity) else e0).eid ∈
      idxLookup (idxRemove w.componentEntities t i) t'
    by_cases h : e0.eid = i
    · have he0 : e0 = e := huniq e0 h0 h
      subst he0
      rw [if_pos h] at hdes ht' ⊢
      have ht'0 : t' ∈ e0.comps ∧ t' ≠ t := by
        have := (hw.compsNodup e0 h0).mem_erase_iff.mp ht'
        exact ⟨this.2, this.1⟩
      have hmem0 : e0.eid ∈ idxLookup w.componentEntities t' :=
        hw.compFwd e0 h0 hdes t' ht'0.1
      rw [idxLookup_idxRemove_ne _ t t' i ht'0.2]
      exact hmem0
    · rw [if_neg h] at hdes ht' ⊢
      have hmem0 : e0.eid ∈ idxLookup w.componentEntities t' :=
        hw.compFwd e0 h0 hdes t' ht'
      by_cases hk : t' = t
      · subst hk
        rw [idxLookup_idxRemove_self _ t' i hw.compKeys]
        exact (List.mem_erase_of_ne h).mpr hmem0
      · rw [idxLookup_idxRemove_ne _ t t' i hk]
        exact hmem0
  · intro e' he' hdes g' hg'
    obtain ⟨e0, h0, heq⟩ := mem_updateObj w i _ e' he'
    subst heq
    by_cases h : e0.eid = i
    · rw [if_pos h] at hdes hg' ⊢
      exact hw.tagFwd e0 h0 hdes g' hg'
    · rw [if_neg h] at hdes hg' ⊢
      exact hw.tagFwd e0 h0 hdes g' hg'

theorem winv_attach_tag (w : World) (i : Nat) (t : String) (e : EEntity)
    (hw : WInv w) (he : w.findObj i = some e) (hd : e.destroyed = false)
    (ht : t ∉ e.etags) :
    WInv ((w.updateObj i
      (fun e0 => { e0 with etags := e0.etags ++ [t] })).registerTag t i) := by
  obtain ⟨heo, heid⟩ := findObj_mem w i e he
  have huniq : ∀ e0 ∈ w.objects, e0.eid = i → e0 = e := fun e0 h0 hid0 =>
    eid_inj w hw.objNodup e0 e h0 heo (hid0.trans heid.symm)
  refine ⟨?_, ?_, ?_, ?_, ?_, ?_, ?_, ?_, ?_, ?_, ?_, ?_, ?_, ?_, ?_⟩
  · exact (eids_updateObj w i (fun e0 => { e0 with etags := e0.etags ++ [t] }) (fun _ => rfl)) ▸ hw.objNodup
  · intro e' he'
    obtain ⟨e0, h0, heq⟩ := mem_updateObj w i _ e' he'
    subst heq
    by_cases h : e0.eid = i
    · rw [if_pos h]
      exact hw.objLt e0 h0
    · rw [if_neg h]
      exact hw.objLt e0 h0
  · exact hw.aliveNodup
  · intro i' hid'
    obtain ⟨e0, h0, heq, hdes⟩ := hw.aliveObj i' hid'
    refine ⟨if e0.eid = i then { e0 with etags := e0.etags ++ [t] } else e0,
      mem_updateObj_of_mem w i _ e0 h0, ?_, ?_⟩
    · by_cases h : e0.eid = i
      · rw [if_pos h]
        exact heq
      · rw [if_neg h]
        exact heq
    · by_cases h : e0.eid = i
      · rw [if_pos h]
        exact hdes
      · rw [if_neg h]
        exact hdes
  · intro e' he' hdes
    obtain ⟨e0, h0, heq⟩ := mem_updateObj w i _ e' he'
    subst heq
    by_cases h : e0.eid = i
    · rw [if_pos h] at hdes ⊢
      exact hw.objAlive e0 h0 hdes
    · rw [if_neg h] at hdes ⊢
      exact hw.objAlive e0 h0 hdes
  · intro e' he'
    obtain ⟨e0, h0, heq⟩ := mem_updateObj w i _ e' he'
    subst heq
    by_cases h : e0.eid = i
    · rw [if_pos h]
      exact hw.compsNodup e0 h0
    · rw [if_neg h]
      exact hw.compsNodup e0 h0
  · intro e' he'
    obtain ⟨e0, h0, heq⟩ := mem_updateObj w i _ e' he'
    subst heq
    by_cases h : e0.eid = i
    · rw [if_pos h]
      have he0 : e0 = e := huniq e0 h0 h
      subst he0
      show (e0.etags ++ [t]).Nodup
      simp [List.nodup_append, hw.etagsNodup e0 h0, ht]
    · rw [if_neg h]
      exact hw.etagsNodup e0 h0
  · exact hw.compKeys
  · exact keys_idxAdd_nodup _ t i hw.tagKeys
  · exact hw.compEntries
  · intro t'
    show (idxLookup (idxAdd w.taggedEntities t i) t').Nodup
    by_cases hk : t' = t
    · subst hk
      rw [idxLookup_idxAdd_self]
      by_cases hv : i ∈ idxLookup w.taggedEntities t'
      · rw [if_pos hv]
        exact hw.tagEntries t'
      · rw [if_neg hv]
        simp [List.nodup_append, hw.tagEntries t', hv]
    · rw [idxLookup_idxAdd_ne _ t t' i hk]
      exact hw.tagEntries t'
  · intro g' i' hmem
    obtain ⟨e0, h0, heq0, hd0, hg0⟩ := hw.compRev g' i' hmem
    refine ⟨if e0.eid = i then { e0 with etags := e0.etags ++ [t] } else e0,
      mem_updateObj_of_mem w i _ e0 h0, ?_⟩
    by_cases h : e0.eid = i
    · rw [if_pos h]
      exact ⟨heq0, hd0, hg0⟩
    · rw [if_neg h]
      exact ⟨heq0, hd0, hg0⟩
  · intro t' i' hmem
    have hmem' : i' ∈ idxLookup (idxAdd w.taggedEntities t i) t' := hmem
    have hwit : ∀ e0 ∈ w.objects, e0.eid = i' → e0.destroyed = false → t' ∈ e0.etags →
        ∃ e2 ∈ ((w.updateObj i
          (fun e0 => { e0 with etags := e0.etags ++ [t] })).registerTag t i).objects,
          e2.eid = i' ∧ e2.destroyed = false ∧ t' ∈ e2.etags := by
      intro e0 h0 heq0 hd0 ht0
      refine ⟨if e0.eid = i then { e0 with etags := e0.etags ++ [t] } else e0,
        mem_updateObj_of_mem w i _ e0 h0, ?_⟩
      by_cases h : e0.eid = i
      · rw [if_pos h]
        exact ⟨heq0, hd0, List.mem_append_left _ ht0⟩
      · rw [if_neg h]
        exact ⟨heq0, hd0, ht0⟩
    by_cases hk : t' = t
    · subst hk
      rw [idxLookup_idxAdd_self] at hmem'
      have hcases : i' ∈ idxLookup w.taggedEntities t' ∨ i' = i := by
        by_cases hv : i ∈ idxLookup w.taggedEntities t'
        · rw [if_pos hv] at hmem'
          exact Or.inl hmem'
        · rw [if_neg hv] at hmem'
          rcases List.mem_append.mp hmem' with h1 | h2
          · exact Or.inl h1
          · simp only [List.mem_singleton] at h2
            exact Or.inr h2
      rcases hcases with hold | hnew
      · obtain ⟨e0, h0, heq0, hd0, ht0⟩ := hw.tagRev t' i' hold
        exact hwit e0 h0 heq0 hd0 ht0
      · refine ⟨{ e with etags := e.etags ++ [t'] }, ?_,
          by rw [heid]; exact hnew.symm, hd, by simp⟩
        have hm := mem_updateObj_of_mem w i
          (fun e0 => { e0 with etags := e0.etags ++ [t'] }) e heo
        rwa [if_pos heid] at hm
    · rw [idxLookup_idxAdd_ne _ t t' i hk] at hmem'
      obtain ⟨e0, h0, heq0, hd0, ht0⟩ := hw.tagRev t' i' hmem'
      exact hwit e0 h0 heq0 hd0 ht0
  · intro e' he' hdes g' hg'
    obtain ⟨e0, h0, heq⟩ := mem_updateObj w i _ e' he'
    subst heq
    by_cases h : e0.eid = i
    · rw [if_pos h] at hdes hg' ⊢
      exact hw.compFwd e0 h0 hdes g' hg'
    · rw [if_neg h] at hdes hg' ⊢
      exact hw.compFwd e0 h0 hdes g' hg'
  · intro e' he' hdes t' ht'
    obtain ⟨e0, h0, heq⟩ := mem_updateObj w i _ e' he'
    subst heq
    by_cases h : e0.eid = i
    · have he0 : e0 = e := huniq e0 h0 h
      subst he0
      rw [if_pos h] at hdes ht' ⊢
      show e0.eid ∈ idxLookup (idxAdd w.taggedEntities t i) t'
      rcases List.mem_append.mp ht' with h1 | h2
      · exact mem_idxAdd_of_mem _ t t' i e0.eid (hw.tagFwd e0 h0 hdes t' h1)
      · simp only [List.mem_singleton] at h2
        subst h2
        rw [h]
        exact self_mem_idxAdd _ t' i
    · rw [if_neg h] at hdes ht' ⊢
      show e0.eid ∈ idxLookup (idxAdd w.taggedEntities t i) t'
      exact mem_idxAdd_of_mem _ t t' i e0.eid (hw.tagFwd e0 h0 hdes t' ht')

theorem winv_detach_tag (w : World) (i : Nat) (t : String) (e : EEntity)
    (hw : WInv w) (he : w.findObj i = some e) (hd : e.destroyed = false)
    (ht : t ∈ e.etags) :
    WInv ((w.updateObj i
      (fun e0 => { e0 with etags := e0.etags.erase t })).unregisterTag t i) := by
  obtain ⟨heo, heid⟩ := findObj_mem w i e he
  have huniq : ∀ e0 ∈ w.objects, e0.eid = i → e0 = e := fun e0 h0 hid0 =>
    eid_inj w hw.objNodup e0 e h0 heo (hid0.trans heid.symm)
  refine ⟨?_, ?_, ?_, ?_, ?_, ?_, ?_, ?_, ?_, ?_, ?_, ?_, ?_, ?_, ?_⟩
  · exact (eids_updateObj w i (fun e0 => { e0 with etags := e0.etags.erase t })
      (fun _ => rfl)) ▸ hw.objNodup
  · intro e' he'
    obtain ⟨e0, h0, heq⟩ := mem_updateObj w i _ e' he'
    subst heq
    by_cases h : e0.eid = i
    · rw [if_pos h]
      exact hw.objLt e0 h0
    · rw [if_neg h]
      exact hw.objLt e0 h0
  · exact hw.aliveNodup
  · intro i' hi'
    obtain ⟨e0, h0, heq, hdes⟩ := hw.aliveObj i' hi'
    refine ⟨if e0.eid = i then { e0 with etags := e0.etags.erase t } else e0,
      mem_updateObj_of_mem w i _ e0 h0, ?_, ?_⟩
    · by_cases h : e0.eid = i
      · rw [if_pos h]
        exact heq
      · rw [if_neg h]
        exact heq
    · by_cases h : e0.eid = i
      · rw [if_pos h]
        exact hdes
      · rw [if_neg h]
        exact hdes
  · intro e' he' hdes
    obtain ⟨e0, h0, heq⟩ := mem_updateObj w i _ e' he'
    subst heq
    by_cases h : e0.eid = i
    · rw [if_pos h] at hdes ⊢
      exact hw.objAlive e0 h0 hdes
    · rw [if_neg h] at hdes ⊢
      exact hw.objAlive e0 h0 hdes
  · intro e' he'
    obtain ⟨e0, h0, heq⟩ := mem_updateObj w i _ e' he'
    subst heq
    by_cases h : e0.eid = i
    · rw [if_pos h]
      exact hw.compsNodup e0 h0
    · rw [if_neg h]
      exact hw.compsNodup e0 h0
  · intro e' he'
    obtain ⟨e0, h0, heq⟩ := mem_updateObj w i _ e' he'
    subst heq
    by_cases h : e0.eid = i
    · rw [if_pos h]
      exact (hw.etagsNodup e0 h0).erase t
    · rw [if_neg h]
      exact hw.etagsNodup e0 h0
  · exact hw.compKeys
  · exact keys_idxRemove_nodup _ t i hw.tagKeys
  · exact hw.compEntries
  · intro t'
    show (idxLookup (idxRemove w.taggedEntities t i) t').Nodup
    by_cases hk : t' = t
    · subst hk
      rw [idxLookup_idxRemove_self _ t' i hw.tagKeys]
      exact (hw.tagEntries t').erase i
    · rw [idxLookup_idxRemove_ne _ t t' i hk]
      exact hw.tagEntries t'
  · intro g' i' hmem
    obtain ⟨e0, h0, heq0, hd0, hg0⟩ := hw.compRev g' i' hmem
    refine ⟨if e0.eid = i then { e0 with etags := e0.etags.erase t } else e0,
      mem_updateObj_of_mem w i _ e0 h0, ?_⟩
    by_cases h : e0.eid = i
    · rw [if_pos h]
      exact ⟨heq0, hd0, hg0⟩
    · rw [if_neg h]
      exact ⟨heq0, hd0, hg0⟩
  · intro t' i' hmem
    have hmem' : i' ∈ idxLookup w.taggedEntities t' :=
      mem_idxLookup_idxRemove _ t t' i i' hw.tagKeys hmem
    obtain ⟨e0, h0, heq0, hd0, ht0⟩ := hw.tagRev t' i' hmem'
    refine ⟨if e0.eid = i then { e0 with etags := e0.etags.erase t } else e0,
      mem_updateObj_of_mem w i _ e0 h0, ?_⟩
    by_cases h : e0.eid = i
    · rw [if_pos h]
      refine ⟨heq0, hd0, ?_⟩
      have he0 : e0 = e := huniq e0 h0 h
      have hne : t' ≠ t := by
        intro hkk
        subst hkk
        have hii : i' = i := heq0 ▸ h.symm ▸ rfl
        subst hii
        have hmem2 : i' ∈ idxLookup (idxRemove w.taggedEntities t' i') t' := hmem
        rw [idxLookup_idxRemove_self _ t' i' hw.tagKeys] at hmem2
        exact absurd rfl (((hw.tagEntries t').mem_erase_iff.mp hmem2).1)
      exact (List.mem_erase_of_ne hne).mpr ht0
    · rw [if_neg h]
      exact ⟨heq0, hd0, ht0⟩
  · intro e' he' hdes g' hg'
    obtain ⟨e0, h0, heq⟩ := mem_updateObj w i _ e' he'
    subst heq
    by_cases h : e0.eid = i
    · rw [if_pos h] at hdes hg' ⊢
      exact hw.compFwd e0 h0 hdes g' hg'
    · rw [if_neg h] at hdes hg' ⊢
      exact hw.compFwd e0 h0 hdes g' hg'
  · intro e' he' hdes t' ht'
    obtain ⟨e0, h0, heq⟩ := mem_updateObj w i _ e' he'
    subst heq
    show (if e0.eid = i then ({ e0 with etags := e0.etags.erase t } : EEntity) else e0).eid ∈
      idxLookup (idxRemove w.taggedEntities t i) t'
    by_cases h : e0.eid = i
    · have he0 : e0 = e := huniq e0 h0 h
      subst he0
      rw [if_pos h] at hdes ht' ⊢
      have ht'0 : t' ∈ e0.etags ∧ t' ≠ t := by
        have := (hw.etagsNodup e0 h0).mem_erase_iff.mp ht'
        exact ⟨this.2, this.1⟩
      have hmem0 : e0.eid ∈ idxLookup w.taggedEntities t' :=
        hw.tagFwd e0 h0 hdes t' ht'0.1
      rw [idxLookup_idxRemove_ne _ t t' i ht'0.2]
      exact hmem0
    · rw [if_neg h] at hdes ht' ⊢
      have hmem0 : e0.eid ∈ idxLookup w.taggedEntities t' :=
        hw.tagFwd e0 h0 hdes t' ht'
      by_cases hk : t' = t
      · subst hk
        rw [idxLookup_idxRemove_self _ t' i hw.tagKeys]
        exact (List.mem_erase_of_ne h).mpr hmem0
      · rw [idxLookup_idxRemove_ne _ t t' i hk]
        exact hmem0

theorem winv_removeComponent (w : World) (i : Nat) (t : String) (hw : WInv w) :
    WInv (w.removeComponent i t).1 := by
  cases h : w.findObj i with
  | none =>
    simp only [World.removeComponent, h]
    exact hw
  | some e =>
    by_cases hd : e.destroyed = true
    · simp only [World.removeComponent, h, hd, if_true]
      exact hw
    · have hd' : e.destroyed = false := by simpa using hd
      by_cases ht : t ∈ e.comps
      · simp only [World.removeComponent, h, hd', Bool.false_eq_true, if_false, ht, if_true]
        exact winv_detach_comp w i t e hw h hd' ht
      · simp only [World.removeComponent, h, hd', Bool.false_eq_true, if_false, ht, if_true]
        exact hw

theorem removeComponent_eq (w : World) (i : Nat) (t : String) (e : EEntity)
    (h : w.findObj i = some e) (hd : e.destroyed = false) (ht : t ∈ e.comps) :
    (w.removeComponent i t).1 =
      (w.updateObj i (fun e0 => { e0 with comps := e0.comps.erase t })).unregisterComponent t i := by
  simp only [World.removeComponent, h, hd, Bool.false_eq_true, if_false, ht, if_true]

theorem winv_addComponent (w : World) (i : Nat) (t : String) (hw : WInv w) :
    WInv (w.addComponent i t) := by
  cases h : w.findObj i with
  | none =>
    simp only [World.addComponent, h]
    exact hw
  | some e =>
    by_cases hd : e.destroyed = true
    · simp only [World.addComponent, h, hd, if_true]
      exact hw
    · have hd' : e.destroyed = false := by simpa using hd
      by_cases ht : t ∈ e.comps
      · simp only [World.addComponent, h, hd', Bool.false_eq_true, if_false, ht, if_true]
        have hw1 : WInv (w.removeComponent i t).1 := winv_removeComponent w i t hw
        have heid := (findObj_mem w i e h).2
        have hfind : (w.removeComponent i t).1.findObj i =
            some { e with comps := e.comps.erase t } := by
          rw [removeComponent_eq w i t e h hd' ht]
          have hob : ((w.updateObj i
              (fun e0 => { e0 with comps := e0.comps.erase t })).unregisterComponent t i).findObj i =
              (w.updateObj i (fun e0 => { e0 with comps := e0.comps.erase t })).findObj i := rfl
          rw [hob, findObj_updateObj_self w i
            (fun e0 => { e0 with comps := e0.comps.erase t }) (fun _ => rfl), h]
          simp [heid]
        have hnot : t ∉ ({ e with comps := e.comps.erase t } : EEntity).comps := by
          intro hc
          exact ((hw.compsNodup e (findObj_mem w i e h).1).mem_erase_iff.mp hc).1 rfl
        exact winv_attach_comp _ i t _ hw1 hfind hd' hnot
      · simp only [World.addComponent, h, hd', Bool.false_eq_true, if_false, ht, if_true]
        exact winv_attach_comp w i t e hw h hd' ht

theorem winv_addTag (w : World) (i : Nat) (g : String) (hw : WInv w) :
    WInv (w.addTag i g) := by
  cases h : w.findObj i with
  | none =>
    simp only [World.addTag, h]
    exact hw
  | some e =>
    by_cases hd : e.destroyed = true
    · simp only [World.addTag, h, hd, if_true]
      exact hw
    · have hd' : e.destroyed = false := by simpa using hd
      by_cases hg : g ∈ e.etags
      · simp only [World.addTag, h, hd', Bool.false_eq_true, if_false, hg, if_true]
        exact hw
      · simp only [World.addTag, h, hd', Bool.false_eq_true, if_false, hg, if_true]
        exact winv_attach_tag w i g e hw h hd' hg

theorem winv_removeTag (w : World) (i : Nat) (g : String) (hw : WInv w) :
    WInv (w.removeTag i g) := by
  cases h : w.findObj i with
  | none =>
    simp only [World.removeTag, h]
    exact hw
  | some e =>
    by_cases hd : e.destroyed = true
    · simp only [World.removeTag, h, hd, if_true]
      exact hw
    · have hd' : e.destroyed = false := by simpa using hd
      by_cases hg : g ∈ e.etags
      · simp only [World.removeTag, h, hd', Bool.false_eq_true, if_false, hg, if_true]
        exact winv_detach_tag w i g e hw h hd' hg
      · simp only [World.removeTag, h, hd', Bool.false_eq_true, if_false, hg, if_true]
        exact hw

theorem keys_foldRemove_sublist (l : List String) (m : List (String × List Nat)) (i : Nat) :
    ((l.foldl (fun acc t => idxRemove acc t i) m).map Prod.fst).Sublist (m.map Prod.fst) := by
  induction l generalizing m with
  | nil => exact List.Sublist.refl _
  | cons t l ih =>
    rw [List.foldl_cons]
    exact (ih _).trans (keys_idxRemove_sublist m t i)

theorem idxLookup_foldRemove (l : List String) (m : List (String × List Nat)) (i : Nat)
    (k : String) (hkeys : (m.map Prod.fst).Nodup) (hent : ∀ k', (idxLookup m k').Nodup) :
    idxLookup (l.foldl (fun acc t => idxRemove acc t i) m) k =
      if k ∈ l then (idxLookup m k).erase i else idxLookup m k := by
  induction l generalizing m with
  | nil => simp
  | cons t l ih =>
    rw [List.foldl_cons]
    have hkeys' := keys_idxRemove_nodup m t i hkeys
    have hent' : ∀ k', (idxLookup (idxRemove m t i) k').Nodup := by
      intro k'
      by_cases hk : k' = t
      · subst hk
        rw [idxLookup_idxRemove_self m k' i hkeys]
        exact (hent k').erase i
      · rw [idxLookup_idxRemove_ne m t k' i hk]
        exact hent k'
    rw [ih (idxRemove m t i) hkeys' hent']
    by_cases hkt : k = t
    · subst hkt
      rw [idxLookup_idxRemove_self m k i hkeys]
      by_cases hkl : k ∈ l
      · rw [if_pos hkl, if_pos (List.mem_cons_self k l)]
        have hni : i ∉ (idxLookup m k).erase i := fun hmm =>
          ((hent k).mem_erase_iff.mp hmm).1 rfl
        rw [List.erase_of_not_mem hni]
      · rw [if_neg hkl, if_pos (List.mem_cons_self k l)]
    · rw [idxLookup_idxRemove_ne m t k i hkt]
      by_cases hkl : k ∈ l
      · rw [if_pos hkl, if_pos (List.mem_cons_of_mem t hkl)]
      · rw [if_neg hkl, if_neg (by simp [hkt, hkl])]

theorem winv_entityDestroy (w : World) (i : Nat) (hw : WInv w) :
    WInv (w.entityDestroy i).1 := by
  cases h : w.findObj i with
  | none =>
    simp only [World.entityDestroy, h]
    exact hw
  | some e =>
    by_cases hdt : e.destroyed = true
    · simp only [World.entityDestroy, h, hdt, if_true]
      exact hw
    · have hd : e.destroyed = false := by simpa using hdt
      obtain ⟨heo, heid⟩ := findObj_mem w i e h
      have huniq : ∀ e0 ∈ w.objects, e0.eid = i → e0 = e := fun e0 h0 hid0 =>
        eid_inj w hw.objNodup e0 e h0 heo (hid0.trans heid.symm)
      have hobj : (w.entityDestroy i).1.objects =
          (w.updateObj i
            (fun e0 => { e0 with comps := [], etags := [], destroyed := true })).objects := by
        rw [entityDestroy_eq w i e h hd]
        rfl
      have halive : (w.entityDestroy i).1.alive = w.alive.erase i := by
        rw [entityDestroy_eq w i e h hd]
      have hcounter : (w.entityDestroy i).1.counter = w.counter := by
        rw [entityDestroy_eq w i e h hd]
      have hcomp : (w.entityDestroy i).1.componentEntities =
          e.comps.foldl (fun m t => idxRemove m t i) w.componentEntities := by
        rw [entityDestroy_eq w i e h hd]
      have htag : (w.entityDestroy i).1.taggedEntities =
          e.etags.foldl (fun m g => idxRemove m g i) w.taggedEntities := by
        rw [entityDestroy_eq w i e h hd]
      refine ⟨?_, ?_, ?_, ?_, ?_, ?_, ?_, ?_, ?_, ?_, ?_, ?_, ?_, ?_, ?_⟩
      · rw [hobj]
        exact (eids_updateObj w i
          (fun e0 => { e0 with comps := [], etags := [], destroyed := true })
          (fun _ => rfl)) ▸ hw.objNodup
      · intro e' he'
        rw [hobj] at he'
        rw [hcounter]
        obtain ⟨e0, h0, heq⟩ := mem_updateObj w i _ e' he'
        subst heq
        by_cases hh : e0.eid = i
        · rw [if_pos hh]
          exact hw.objLt e0 h0
        · rw [if_neg hh]
          exact hw.objLt e0 h0
      · rw [halive]
        exact hw.aliveNodup.erase i
      · intro i' hi'
        rw [halive] at hi'
        obtain ⟨hne, hmem⟩ := hw.aliveNodup.mem_erase_iff.mp hi'
        obtain ⟨e0, h0, heq, hdes⟩ := hw.aliveObj i' hmem
        have hne0 : ¬ e0.eid = i := by rw [heq]; exact hne
        have hm := mem_updateObj_of_mem w i
          (fun e0 => { e0 with comps := [], etags := [], destroyed := true }) e0 h0
        rw [if_neg hne0] at hm
        rw [hobj]
        exact ⟨e0, hm, heq, hdes⟩
      · intro e' he' hdes
        rw [hobj] at he'
        rw [halive]
        obtain ⟨e0, h0, heq⟩ := mem_updateObj w i _ e' he'
        subst heq
        by_cases hh : e0.eid = i
        · rw [if_pos hh] at hdes
          cases hdes
        · rw [if_neg hh] at hdes ⊢
          exact (List.mem_erase_of_ne hh).mpr (hw.objAlive e0 h0 hdes)
      · intro e' he'
        rw [hobj] at he'
        obtain ⟨e0, h0, heq⟩ := mem_updateObj w i _ e' he'
        subst heq
        by_cases hh : e0.eid = i
        · rw [if_pos hh]
          exact List.nodup_nil
        · rw [if_neg hh]
          exact hw.compsNodup e0 h0
      · intro e' he'
        rw [hobj] at he'
        obtain ⟨e0, h0, heq⟩ := mem_updateObj w i _ e' he'
        subst heq
        by_cases hh : e0.eid = i
        · rw [if_pos hh]
          exact List.nodup_nil
        · rw [if_neg hh]
          exact hw.etagsNodup e0 h0
      · rw [hcomp]
        exact (keys_foldRemove_sublist e.comps w.componentEntities i).nodup hw.compKeys
      · rw [htag]
        exact (keys_foldRemove_sublist e.etags w.taggedEntities i).nodup hw.tagKeys
      · intro t'
        rw [hcomp, idxLookup_foldRemove e.comps w.componentEntities i t'
          hw.compKeys hw.compEntries]
        by_cases hk : t' ∈ e.comps
        · rw [if_pos hk]
          exact (hw.compEntries t').erase i
        · rw [if_neg hk]
          exact hw.compEntries t'
      · intro g'
        rw [htag, idxLookup_foldRemove e.etags w.taggedEntities i g'
          hw.tagKeys hw.tagEntries]
        by_cases hk : g' ∈ e.etags
        · rw [if_pos hk]
          exact (hw.tagEntries g').erase i
        · rw [if_neg hk]
          exact hw.tagEntries g'
      · intro t' i' hmem
        rw [hcomp, idxLookup_foldRemove e.comps w.componentEntities i t'
          hw.compKeys hw.compEntries] at hmem
        rw [hobj]
        have hget : i' ∈ idxLookup w.componentEntities t' ∧ i' ≠ i := by
          by_cases hk : t' ∈ e.comps
          · rw [if_pos hk] at hmem
            obtain ⟨hne, hm⟩ := (hw.compEntries t').mem_erase_iff.mp hmem
            exact ⟨hm, hne⟩
          · rw [if_neg hk] at hmem
            refine ⟨hmem, ?_⟩
            intro hh
            subst hh
            obtain ⟨e0, h0, heq0, hd0, ht0⟩ := hw.compRev t' i' hmem
            exact hk ((huniq e0 h0 heq0) ▸ ht0)
        obtain ⟨e0, h0, heq0, hd0, ht0⟩ := hw.compRev t' i' hget.1
        have hne0 : ¬ e0.eid = i := by rw [heq0]; exact hget.2
        have hm := mem_updateObj_of_mem w i
          (fun e0 => { e0 with comps := [], etags := [], destroyed := true }) e0 h0
        rw [if_neg hne0] at hm
        exact ⟨e0, hm, heq0, hd0, ht0⟩
      · intro g' i' hmem
        rw [htag, idxLookup_foldRemove e.etags w.taggedEntities i g'
          hw.tagKeys hw.tagEntries] at hmem
        rw [hobj]
        have hget : i' ∈ idxLookup w.taggedEntities g' ∧ i' ≠ i := by
          by_cases hk : g' ∈ e.etags
          · rw [if_pos hk] at hmem
            obtain ⟨hne, hm⟩ := (hw.tagEntries g').mem_erase_iff.mp hmem
            exact ⟨hm, hne⟩
          · rw [if_neg hk] at hmem
            refine ⟨hmem, ?_⟩
            intro hh
            subst hh
            obtain ⟨e0, h0, heq0, hd0, hg0⟩ := hw.tagRev g' i' hmem
            exact hk ((huniq e0 h0 heq0) ▸ hg0)
        obtain ⟨e0, h0, heq0, hd0, hg0⟩ := hw.tagRev g' i' hget.1
        have hne0 : ¬ e0.eid = i := by rw [heq0]; exact hget.2
        have hm := mem_updateObj_of_mem w i
          (fun e0 => { e0 with comps := [], etags := [], destroyed := true }) e0 h0
        rw [if_neg hne0] at hm
        exact ⟨e0, hm, heq0, hd0, hg0⟩
      · intro e' he' hdes t' ht'
        rw [hobj] at he'
        obtain ⟨e0, h0, heq⟩ := mem_updateObj w i _ e' he'
        subst heq
        by_cases hh : e0.eid = i
        · rw [if_pos hh] at hdes
          cases hdes
        · rw [if_neg hh] at hdes ht' ⊢
          rw [hcomp, idxLookup_foldRemove e.comps w.componentEntities i t'
            hw.compKeys hw.compEntries]
          have hmem0 := hw.compFwd e0 h0 hdes t' ht'
          by_cases hk : t' ∈ e.comps
          · rw [if_pos hk]
            exact (List.mem_erase_of_ne hh).mpr hmem0
          · rw [if_neg hk]
            exact hmem0
      · intro e' he' hdes g' hg'
        rw [hobj] at he'
        obtain ⟨e0, h0, heq⟩ := mem_updateObj w i _ e' he'
        subst heq
        by_cases hh : e0.eid = i
        · rw [if_pos hh] at hdes
          cases hdes
        · rw [if_neg hh] at hdes hg' ⊢
          rw [htag, idxLookup_foldRemove e.etags w.taggedEntities i g'
            hw.tagKeys hw.tagEntries]
          have hmem0 := hw.tagFwd e0 h0 hdes g' hg'
          by_cases hk : g' ∈ e.etags
          · rw [if_pos hk]
            exact (List.mem_erase_of_ne hh).mpr hmem0
          · rw [if_neg hk]
            exact hmem0

theorem winv_applyOp (w : World) (op : WorldOp) (hw : WInv w) : WInv (w.applyOp op) := by
  cases op with
  | create => exact winv_createEntity w hw
  | addComponent i t => exact winv_addComponent w i t hw
  | removeComponent i t => exact winv_removeComponent w i t hw
  | addTag i g => exact winv_addTag w i g hw
  | removeTag i g => exact winv_removeTag w i g hw
  | destroy i => exact winv_entityDestroy w i hw

theorem winv_applyOps (w : World) (ops : List WorldOp) (hw : WInv w) :
    WInv (w.applyOps ops) := by
  induction ops generalizing w with
  | nil => exact hw
  | cons op ops ih =>
    rw [World.applyOps, List.foldl_cons]
    exact ih _ (winv_applyOp w op hw)

theorem hasComp_alive_mem_idx (w : World) (hw : WInv w) (i : Nat) (t : String)
    (halive : i ∈ w.alive) (hc : w.entityHasComponent i t = true) :
    i ∈ idxLookup w.componentEntities t := by
  obtain ⟨e0, h0, heq0, hd0⟩ := hw.aliveObj i halive
  rw [World.entityHasComponent] at hc
  cases hfind : w.findObj i with
  | none =>
    rw [hfind] at hc
    cases hc
  | some e1 =>
    rw [hfind] at hc
    have he1 : e1 = e0 := by
      obtain ⟨h1, heq1⟩ := findObj_mem w i e1 hfind
      exact eid_inj w hw.objNodup e1 e0 h1 h0 (heq1.trans heq0.symm)
    subst he1
    have ht : t ∈ e1.comps := by simpa using hc
    exact heq0 ▸ hw.compFwd e1 h0 hd0 t ht

theorem mem_idx_alive_hasComp (w : World) (hw : WInv w) (i : Nat) (t : String)
    (hm : i ∈ idxLookup w.componentEntities t) :
    i ∈ w.alive ∧ w.entityHasComponent i t = true := by
  obtain ⟨e0, h0, heq0, hd0, ht0⟩ := hw.compRev t i hm
  have hfind : w.findObj i = some e0 := heq0 ▸ findObj_of_mem w hw.objNodup e0 h0
  constructor
  · exact heq0 ▸ hw.objAlive e0 h0 hd0
  · rw [World.entityHasComponent, hfind]
    simpa using ht0

theorem query_foldl_mem (w : World) (rest : List String) (acc : List Nat) (i : Nat) :
    i ∈ rest.foldl
      (fun result t =>
        match w.componentEntities.find? (fun p => p.1 == t) with
        | none => []
        | some pt => result.filter (fun id => id ∈ pt.2))
      acc ↔
    i ∈ acc ∧ ∀ t ∈ rest, i ∈ idxLookup w.componentEntities t := by
  induction rest generalizing acc with
  | nil => simp
  | cons t rest ih =>
    rw [List.foldl_cons]
    cases hf : w.componentEntities.find? (fun p => p.1 == t) with
    | none =>
      have hlook : idxLookup w.componentEntities t = [] := by rw [idxLookup, hf]
      simp only [hf, ih, List.forall_mem_cons, hlook]
      simp
    | some pt =>
      have hlook : idxLookup w.componentEntities t = pt.2 := by rw [idxLookup, hf]
      simp only [hf, ih, List.forall_mem_cons, hlook, List.mem_filter]
      constructor
      · rintro ⟨⟨ha, hb⟩, hc⟩
        exact ⟨ha, by simpa using hb, hc⟩
      · rintro ⟨ha, hb, hc⟩
        exact ⟨⟨ha, by simpa using hb⟩, hc⟩

theorem query_mem_iff (w : World) (hw : WInv w) (ts : List String) (i : Nat) :
    i ∈ w.getEntitiesWithComponents ts ↔
      i ∈ w.alive ∧ ∀ t ∈ ts, w.entityHasComponent i t = true := by
  cases ts with
  | nil => simp [World.getEntitiesWithComponents]
  | cons t0 rest =>
    rw [World.getEntitiesWithComponents]
    cases hf : w.componentEntities.find? (fun p => p.1 == t0) with
    | none =>
      have hlook : idxLookup w.componentEntities t0 = [] := by rw [idxLookup, hf]
      simp only [List.not_mem_nil, false_iff]
      rintro ⟨halive, hall⟩
      have := hasComp_alive_mem_idx w hw i t0 halive (hall t0 (List.mem_cons_self t0 rest))
      rw [hlook] at this
      cases this
    | some p0 =>
      have hlook : idxLookup w.componentEntities t0 = p0.2 := by rw [idxLookup, hf]
      rw [query_foldl_mem w rest p0.2 i]
      constructor
      · rintro ⟨h0, hrest⟩
        have hmem0 : i ∈ idxLookup w.componentEntities t0 := hlook ▸ h0
        have halive := (mem_idx_alive_hasComp w hw i t0 hmem0).1
        refine ⟨halive, ?_⟩
        intro t ht
        rcases List.mem_cons.mp ht with h | h
        · subst h
          exact (mem_idx_alive_hasComp w hw i t hmem0).2
        · exact (mem_idx_alive_hasComp w hw i t (hrest t h)).2
      · rintro ⟨halive, hall⟩
        constructor
        · rw [← hlook]
          exact hasComp_alive_mem_idx w hw i t0 halive (hall t0 (List.mem_cons_self t0 rest))
        · intro t ht
          exact hasComp_alive_mem_idx w hw i t halive (hall t (List.mem_cons_of_mem t0 ht))

/-- C6: on every world reachable through the public registry API, the
component set query returns exactly the entities holding all listed
component types: membership is equivalent to being in the entities map
and holding every listed type; the empty list yields all entities in the
map; the result is independent of the order of the listed types; and if
any requested type has an empty set of holders the query result is
empty. -/
theorem c6_query_intersection (ops : List WorldOp) (ts : List String) (i : Nat) :
    (i ∈ (World.init.applyOps ops).getEntitiesWithComponents ts ↔
      i ∈ (World.init.applyOps ops).alive ∧
      ∀ t ∈ ts, (World.init.applyOps ops).entityHasComponent i t = true) ∧
    ((World.init.applyOps ops).getEntitiesWithComponents [] =
      (World.init.applyOps ops).alive) ∧
    (∀ ts2 : List String, ts.Perm ts2 →
      (i ∈ (World.init.applyOps ops).getEntitiesWithComponents ts ↔
       i ∈ (World.init.applyOps ops).getEntitiesWithComponents ts2)) ∧
    (∀ t ∈ ts, idxLookup (World.init.applyOps ops).componentEntities t = [] →
      (World.init.applyOps ops).getEntitiesWithComponents ts = []) := by
  have hw := winv_applyOps World.init ops winv_init
  refine ⟨query_mem_iff _ hw ts i, rfl, ?_, ?_⟩
  · intro ts2 hperm
    rw [query_mem_iff _ hw ts i, query_mem_iff _ hw ts2 i]
    constructor
    · rintro ⟨ha, hall⟩
      exact ⟨ha, fun t ht => hall t (hperm.mem_iff.mpr ht)⟩
    · rintro ⟨ha, hall⟩
      exact ⟨ha, fun t ht => hall t (hperm.mem_iff.mp ht)⟩
  · intro t ht hempty
    rw [List.eq_nil_iff_forall_not_mem]
    intro a ha
    have hmem := (query_mem_iff _ hw ts a).mp ha
    have hidx := hasComp_alive_mem_idx _ hw a t hmem.1 (hmem.2 t ht)
    rw [hempty] at hidx
    cases hidx

/-- C6, witness: with entities 0, 1, 2 holding component sets A, AB and
B, the query for A and B has the same members in both argument orders,
the theorem applied at the swapped permutation. -/
theorem c6_query_intersection_witness :
    (["A", "B"] : List String).Perm ["B", "A"] ∧
    (1 ∈ (World.init.applyOps
        [WorldOp.create, WorldOp.addComponent 0 "A", WorldOp.create,
         WorldOp.addComponent 1 "A", WorldOp.addComponent 1 "B", WorldOp.create,
         WorldOp.addComponent 2 "B"]).getEntitiesWithComponents ["A", "B"] ↔
     1 ∈ (World.init.applyOps
        [WorldOp.create, WorldOp.addComponent 0 "A", WorldOp.create,
         WorldOp.addComponent 1 "A", WorldOp.addComponent 1 "B", WorldOp.create,
         WorldOp.addComponent 2 "B"]).getEntitiesWithComponents ["B", "A"]) :=
  ⟨List.Perm.swap "B" "A" [],
   (c6_query_intersection
      [WorldOp.create, WorldOp.addComponent 0 "A", WorldOp.create,
       WorldOp.addComponent 1 "A", WorldOp.addComponent 1 "B", WorldOp.create,
       WorldOp.addComponent 2 "B"] ["A", "B"] 1).2.2.1 ["B", "A"]
     (List.Perm.swap "B" "A" [])⟩

theorem gone_of_destroy (w : World) (i : Nat) (e : EEntity) (hw : WInv w)
    (h : w.findObj i = some e) (hd : e.destroyed = false) :
    Gone (w.entityDestroy i).1 i := by
  obtain ⟨heo, heid⟩ := findObj_mem w i e h
  have huniq : ∀ e0 ∈ w.objects, e0.eid = i → e0 = e := fun e0 h0 hid0 =>
    eid_inj w hw.objNodup e0 e h0 heo (hid0.trans heid.symm)
  have hobj : (w.entityDestroy i).1.objects =
      (w.updateObj i
        (fun e0 => { e0 with comps := [], etags := [], destroyed := true })).objects := by
    rw [entityDestroy_eq w i e h hd]
    rfl
  have halive : (w.entityDestroy i).1.alive = w.alive.erase i := by
    rw [entityDestroy_eq w i e h hd]
  have hcounter : (w.entityDestroy i).1.counter = w.counter := by
    rw [entityDestroy_eq w i e h hd]
  have hcomp : (w.entityDestroy i).1.componentEntities =
      e.comps.foldl (fun m t => idxRemove m t i) w.componentEntities := by
    rw [entityDestroy_eq w i e h hd]
  have htag : (w.entityDestroy i).1.taggedEntities =
      e.etags.foldl (fun m g => idxRemove m g i) w.taggedEntities := by
    rw [entityDestroy_eq w i e h hd]
  refine ⟨?_, ?_, ?_, ?_, ?_⟩
  · rw [hcounter]
    exact heid ▸ hw.objLt e heo
  · rw [halive]
    exact fun hmm => (hw.aliveNodup.mem_erase_iff.mp hmm).1 rfl
  · intro e' he' heq'
    rw [hobj] at he'
    obtain ⟨e0, h0, heqq⟩ := mem_updateObj w i _ e' he'
    subst heqq
    by_cases hh : e0.eid = i
    · rw [if_pos hh]
    · rw [if_neg hh] at heq' ⊢
      exact absurd heq' hh
  · intro t
    rw [hcomp, idxLookup_foldRemove e.comps w.componentEntities i t
      hw.compKeys hw.compEntries]
    by_cases hk : t ∈ e.comps
    · rw [if_pos hk]
      exact fun hmm => ((hw.compEntries t).mem_erase_iff.mp hmm).1 rfl
    · rw [if_neg hk]
      intro hmm
      obtain ⟨e0, h0, heq0, hd0, ht0⟩ := hw.compRev t i hmm
      exact hk ((huniq e0 h0 heq0) ▸ ht0)
  · intro g
    rw [htag, idxLookup_foldRemove e.etags w.taggedEntities i g
      hw.tagKeys hw.tagEntries]
    by_cases hk : g ∈ e.etags
    · rw [if_pos hk]
      exact fun hmm => ((hw.tagEntries g).mem_erase_iff.mp hmm).1 rfl
    · rw [if_neg hk]
      intro hmm
      obtain ⟨e0, h0, heq0, hd0, hg0⟩ := hw.tagRev g i hmm
      exact hk ((huniq e0 h0 heq0) ▸ hg0)

theorem gone_objects_update (w : World) (i' i : Nat) (f : EEntity → EEntity)
    (hf : ∀ e, (f e).eid = e.eid) (hg : Gone w i) (hne : i ≠ i') :
    ∀ e' ∈ (w.updateObj i' f).objects, e'.eid = i → e'.destroyed = true := by
  intro e' he' heq
  obtain ⟨e0, h0, heqq⟩ := mem_updateObj w i' f e' he'
  subst heqq
  by_cases hh : e0.eid = i'
  · rw [if_pos hh] at heq ⊢
    have h1 : e0.eid = i := by rw [← hf e0]; exact heq
    exact absurd (h1.symm.trans hh) hne
  · rw [if_neg hh] at heq ⊢
    exact hg.objDestroyed e0 h0 heq

theorem gone_update_register_comp (w : World) (i' : Nat) (t : String) (i : Nat)
    (f : EEntity → EEntity) (hf : ∀ e, (f e).eid = e.eid)
    (hg : Gone w i) (hne : i ≠ i') :
    Gone ((w.updateObj i' f).registerComponent t i') i := by
  refine ⟨hg.lt, hg.notAlive, gone_objects_update w i' i f hf hg hne, ?_, hg.notTag⟩
  intro t' hmm
  rcases mem_idxLookup_idxAdd w.componentEntities t t' i' i hmm with hold | hnew
  · exact hg.notComp t' hold
  · exact hne hnew

theorem gone_update_unregister_comp (w : World) (i' : Nat) (t : String) (i : Nat)
    (f : EEntity → EEntity) (hf : ∀ e, (f e).eid = e.eid)
    (hw : WInv w) (hg : Gone w i) (hne : i ≠ i') :
    Gone ((w.updateObj i' f).unregisterComponent t i') i := by
  refine ⟨hg.lt, hg.notAlive, gone_objects_update w i' i f hf hg hne, ?_, hg.notTag⟩
  intro t' hmm
  exact hg.notComp t' (mem_idxLookup_idxRemove w.componentEntities t t' i' i hw.compKeys hmm)

theorem gone_update_register_tag (w : World) (i' : Nat) (g : String) (i : Nat)
    (f : EEntity → EEntity) (hf : ∀ e, (f e).eid = e.eid)
    (hg : Gone w i) (hne : i ≠ i') :
    Gone ((w.updateObj i' f).registerTag g i') i := by
  refine ⟨hg.lt, hg.notAlive, gone_objects_update w i' i f hf hg hne, hg.notComp, ?_⟩
  intro g' hmm
  rcases mem_idxLookup_idxAdd w.taggedEntities g g' i' i hmm with hold | hnew
  · exact hg.notTag g' hold
  · exact hne hnew

theorem gone_update_unregister_tag (w : World) (i' : Nat) (g : String) (i : Nat)
    (f : EEntity → EEntity) (hf : ∀ e, (f e).eid = e.eid)
    (hw : WInv w) (hg : Gone w i) (hne : i ≠ i') :
    Gone ((w.updateObj i' f).unregisterTag g i') i := by
  refine ⟨hg.lt, hg.notAlive, gone_objects_update w i' i f hf hg hne, hg.notComp, ?_⟩
  intro g' hmm
  exact hg.notTag g' (mem_idxLookup_idxRemove w.taggedEntities g g' i' i hw.tagKeys hmm)

theorem gone_entityDestroy (w : World) (i' i : Nat) (hw : WInv w) (hg : Gone w i) :
    Gone (w.entityDestroy i').1 i := by
  cases hfind : w.findObj i' with
  | none =>
    simp only [World.entityDestroy, hfind]
    exact hg
  | some e' =>
    by_cases hdt : e'.destroyed = true
    · simp only [World.entityDestroy, hfind, hdt, if_true]
      exact hg
    · have hd : e'.destroyed = false := by simpa using hdt
      have hobj : (w.entityDestroy i').1.objects =
          (w.updateObj i'
            (fun e0 => { e0 with comps := [], etags := [], destroyed := true })).objects := by
        rw [entityDestroy_eq w i' e' hfind hd]
        rfl
      have halive : (w.entityDestroy i').1.alive = w.alive.erase i' := by
        rw [entityDestroy_eq w i' e' hfind hd]
      have hcounter : (w.entityDestroy i').1.counter = w.counter := by
        rw [entityDestroy_eq w i' e' hfind hd]
      have hcomp : (w.entityDestroy i').1.componentEntities =
          e'.comps.foldl (fun m t => idxRemove m t i') w.componentEntities := by
        rw [entityDestroy_eq w i' e' hfind hd]
      have htag : (w.entityDestroy i').1.taggedEntities =
          e'.etags.foldl (fun m g => idxRemove m g i') w.taggedEntities := by
        rw [entityDestroy_eq w i' e' hfind hd]
      refine ⟨?_, ?_, ?_, ?_, ?_⟩
      · rw [hcounter]
        exact hg.lt
      · rw [halive]
        exact fun hmm => hg.notAlive (List.mem_of_mem_erase hmm)
      · intro e'' he'' heq
        rw [hobj] at he''
        obtain ⟨e0, h0, heqq⟩ := mem_updateObj w i' _ e'' he''
        subst heqq
        by_cases hh : e0.eid = i'
        · rw [if_pos hh]
        · rw [if_neg hh] at heq ⊢
          exact hg.objDestroyed e0 h0 heq
      · intro t
        rw [hcomp, idxLookup_foldRemove e'.comps w.componentEntities i' t
          hw.compKeys hw.compEntries]
        by_cases hk : t ∈ e'.comps
        · rw [if_pos hk]
          exact fun hmm => hg.notComp t (List.mem_of_mem_erase hmm)
        · rw [if_neg hk]
          exact hg.notComp t
      · intro g
        rw [htag, idxLookup_foldRemove e'.etags w.taggedEntities i' g
          hw.tagKeys hw.tagEntries]
        by_cases hk : g ∈ e'.etags
        · rw [if_pos hk]
          exact fun hmm => hg.notTag g (List.mem_of_mem_erase hmm)
        · rw [if_neg hk]
          exact hg.notTag g

theorem gone_applyOp (w : World) (op : WorldOp) (i : Nat) (hw : WInv w) (hg : Gone w i) :
    Gone (w.applyOp op) i := by
  cases op with
  | create =>
    refine ⟨Nat.lt_trans hg.lt (Nat.lt_succ_self _), ?_, ?_, hg.notComp, hg.notTag⟩
    · intro hmm
      rcases List.mem_append.mp hmm with h1 | h2
      · exact hg.notAlive h1
      · simp only [List.mem_singleton] at h2
        exact absurd (h2 ▸ hg.lt) (lt_irrefl _)
    · intro e' he' heq
      rcases List.mem_append.mp he' with h1 | h2
      · exact hg.objDestroyed e' h1 heq
      · simp only [List.mem_singleton] at h2
        subst h2
        have h3 : w.counter = i := heq
        exact absurd (h3 ▸ hg.lt) (lt_irrefl _)
  | addComponent i' t =>
    show Gone (w.addComponent i' t) i
    cases hfind : w.findObj i' with
    | none =>
      simp only [World.addComponent, hfind]
      exact hg
    | some e' =>
      by_cases hdt : e'.destroyed = true
      · simp only [World.addComponent, hfind, hdt, if_true]
        exact hg
      · have hd : e'.destroyed = false := by simpa using hdt
        by_cases hii : i' = i
        · exfalso
          obtain ⟨h0, heq0⟩ := findObj_mem w i' e' hfind
          exact hdt (hg.objDestroyed e' h0 (heq0.trans hii))
        · have hne : i ≠ i' := fun hh => hii hh.symm
          by_cases ht : t ∈ e'.comps
          · simp only [World.addComponent, hfind, hd, Bool.false_eq_true, if_false, ht,
              if_true]
            have hg1 : Gone (w.removeComponent i' t).1 i := by
              rw [removeComponent_eq w i' t e' hfind hd ht]
              exact gone_update_unregister_comp w i' t i _ (fun _ => rfl) hw hg hne
            exact gone_update_register_comp _ i' t i _ (fun _ => rfl) hg1 hne
          · simp only [World.addComponent, hfind, hd, Bool.false_eq_true, if_false, ht,
              if_true]
            exact gone_update_register_comp w i' t i _ (fun _ => rfl) hg hne
  | removeComponent i' t =>
    show Gone (w.removeComponent i' t).1 i
    cases hfind : w.findObj i' with
    | none =>
      simp only [World.removeComponent, hfind]
      exact hg
    | some e' =>
      by_cases hdt : e'.destroyed = true
      · simp only [World.removeComponent, hfind, hdt, if_true]
        exact hg
      · have hd : e'.destroyed = false := by simpa using hdt
        by_cases hii : i' = i
        · exfalso
          obtain ⟨h0, heq0⟩ := findObj_mem w i' e' hfind
          exact hdt (hg.objDestroyed e' h0 (heq0.trans hii))
        · have hne : i ≠ i' := fun hh => hii hh.symm
          by_cases ht : t ∈ e'.comps
          · rw [removeComponent_eq w i' t e' hfind hd ht]
            exact gone_update_unregister_comp w i' t i _ (fun _ => rfl) hw hg hne
          · simp only [World.removeComponent, hfind, hd, Bool.false_eq_true, if_false, ht,
              if_true]
            exact hg
  | addTag i' g =>
    show Gone (w.addTag i' g) i
    cases hfind : w.findObj i' with
    | none =>
      simp only [World.addTag, hfind]
      exact hg
    | some e' =>
      by_cases hdt : e'.destroyed = true
      · simp only [World.addTag, hfind, hdt, if_true]
        exact hg
      · have hd : e'.destroyed = false := by simpa using hdt
        by_cases hii : i' = i
        · exfalso
          obtain ⟨h0, heq0⟩ := findObj_mem w i' e' hfind
          exact hdt (hg.objDestroyed e' h0 (heq0.trans hii))
        · have hne : i ≠ i' := fun hh => hii hh.symm
          by_cases hgm : g ∈ e'.etags
          · simp only [World.addTag, hfind, hd, Bool.false_eq_true, if_false, hgm, if_true]
            exact hg
          · simp only [World.addTag, hfind, hd, Bool.false_eq_true, if_false, hgm, if_true]
            exact gone_update_register_tag w i' g i _ (fun _ => rfl) hg hne
  | removeTag i' g =>
    show Gone (w.removeTag i' g) i
    cases hfind : w.findObj i' with
    | none =>
      simp only [World.removeTag, hfind]
      exact hg
    | some e' =>
      by_cases hdt : e'.destroyed = true
      · simp only [World.removeTag, hfind, hdt, if_true]
        exact hg
      · have hd : e'.destroyed = false := by simpa using hdt
        by_cases hii : i' = i
        · exfalso
          obtain ⟨h0, heq0⟩ := findObj_mem w i' e' hfind
          exact hdt (hg.objDestroyed e' h0 (heq0.trans hii))
        · have hne : i ≠ i' := fun hh => hii hh.symm
          by_cases hgm : g ∈ e'.etags
          · simp only [World.removeTag, hfind, hd, Bool.false_eq_true, if_false, hgm,
              if_true]
            exact gone_update_unregister_tag w i' g i _ (fun _ => rfl) hw hg hne
          · simp only [World.removeTag, hfind, hd, Bool.false_eq_true, if_false, hgm,
              if_true]
            exact hg
  | destroy i' => exact gone_entityDestroy w i' i hw hg

theorem gone_applyOps (w : World) (ops : List WorldOp) (i : Nat) (hw : WInv w)
    (hg : Gone w i) : Gone (w.applyOps ops) i := by
  induction ops generalizing w with
  | nil => exact hg
  | cons op ops ih =>
    rw [World.applyOps, List.foldl_cons]
    exact ih _ (winv_applyOp w op hw) (gone_applyOp w op i hw hg)

/-- C5: an entity id that is live in any world reachable through the
public registry API and is then destroyed never reappears: after the
destruction and any further sequence of API operations, the id is in no
component set query result, in no tag membership lookup, and not in the
entities map. Destruction purges the id from both reverse indices for
every type and tag, and no later operation can reintroduce a retired
id. -/
theorem c5_destroyed_never_reappears (ops1 : List WorldOp) (i : Nat) (e : EEntity)
    (ops2 : List WorldOp)
    (h : (World.init.applyOps ops1).findObj i = some e) (hd : e.destroyed = false) :
    (∀ ts : List String,
      i ∉ (((World.init.applyOps ops1).entityDestroy i).1.applyOps
        ops2).getEntitiesWithComponents ts) ∧
    (∀ g : String,
      i ∉ (((World.init.applyOps ops1).entityDestroy i).1.applyOps
        ops2).getEntitiesWithTag g) ∧
    i ∉ (((World.init.applyOps ops1).entityDestroy i).1.applyOps ops2).alive := by
  have hw1 := winv_applyOps World.init ops1 winv_init
  have hw2 : WInv ((World.init.applyOps ops1).entityDestroy i).1 :=
    winv_entityDestroy _ i hw1
  have hg2 : Gone ((World.init.applyOps ops1).entityDestroy i).1 i :=
    gone_of_destroy _ i e hw1 h hd
  have hw3 : WInv (((World.init.applyOps ops1).entityDestroy i).1.applyOps ops2) :=
    winv_applyOps _ ops2 hw2
  have hg3 : Gone (((World.init.applyOps ops1).entityDestroy i).1.applyOps ops2) i :=
    gone_applyOps _ ops2 i hw2 hg2
  refine ⟨?_, ?_, hg3.notAlive⟩
  · intro ts hmem
    exact hg3.notAlive ((query_mem_iff _ hw3 ts i).mp hmem).1
  · intro g hmem
    exact hg3.notTag g hmem

/-- C5, witness: entity 0 is created and destroyed, then a fresh entity
with component A is created; entity 0 is absent from the query for A,
from the tag lookup, and from the entities map. -/
theorem c5_destroyed_never_reappears_witness :
    ((World.init.applyOps [WorldOp.create]).findObj 0 =
      some { eid := 0, comps := [], etags := [], destroyed := false }) ∧
    (0 ∉ (((World.init.applyOps [WorldOp.create]).entityDestroy 0).1.applyOps
      [WorldOp.create, WorldOp.addComponent 1 "A"]).getEntitiesWithComponents ["A"]) ∧
    (0 ∉ (((World.init.applyOps [WorldOp.create]).entityDestroy 0).1.applyOps
      [WorldOp.create, WorldOp.addComponent 1 "A"]).getEntitiesWithTag "enemy") ∧
    (0 ∉ (((World.init.applyOps [WorldOp.create]).entityDestroy 0).1.applyOps
      [WorldOp.create, WorldOp.addComponent 1 "A"]).alive) := by
  have h := c5_destroyed_never_reappears [WorldOp.create] 0
    { eid := 0, comps := [], etags := [], destroyed := false }
    [WorldOp.create, WorldOp.addComponent 1 "A"] rfl rfl
  exact ⟨rfl, h.1 ["A"], h.2.1 "enemy", h.2.2⟩

theorem addFold_mem (P : GridEntity → Prop) [DecidablePred P] (l res : List GridEntity)
    (x : GridEntity) :
    x ∈ l.foldl
      (fun res o => if P o then (if o ∈ res then res else res ++ [o]) else res) res ↔
    x ∈ res ∨ (x ∈ l ∧ P x) := by
  induction l generalizing res with
  | nil => simp
  | cons o l ih =>
    rw [List.foldl_cons, ih]
    by_cases hp : P o
    · rw [if_pos hp]
      by_cases hm : o ∈ res
      · rw [if_pos hm]
        constructor
        · rintro (h | h)
          · exact Or.inl h
          · exact Or.inr ⟨List.mem_cons_of_mem o h.1, h.2⟩
        · rintro (h | ⟨h1, h2⟩)
          · exact Or.inl h
          · rcases List.mem_cons.mp h1 with h1 | h1
            · subst h1
              exact Or.inl hm
            · exact Or.inr ⟨h1, h2⟩
      · rw [if_neg hm]
        constructor
        · rintro (h | h)
          · rcases List.mem_append.mp h with h | h
            · exact Or.inl h
            · simp only [List.mem_singleton] at h
              subst h
              exact Or.inr ⟨List.mem_cons_self x l, hp⟩
          · exact Or.inr ⟨List.mem_cons_of_mem o h.1, h.2⟩
        · rintro (h | ⟨h1, h2⟩)
          · exact Or.inl (List.mem_append_left _ h)
          · rcases List.mem_cons.mp h1 with h1 | h1
            · subst h1
              exact Or.inl (List.mem_append_right _ (List.mem_singleton_self x))
            · exact Or.inr ⟨h1, h2⟩
    · rw [if_neg hp]
      constructor
      · rintro (h | h)
        · exact Or.inl h
        · exact Or.inr ⟨List.mem_cons_of_mem o h.1, h.2⟩
      · rintro (h | ⟨h1, h2⟩)
        · exact Or.inl h
        · rcases List.mem_cons.mp h1 with h1 | h1
          · subst h1
            exact absurd h2 hp
          · exact Or.inr ⟨h1, h2⟩

theorem addFold_nodup (P : GridEntity → Prop) [DecidablePred P] (l res : List GridEntity)
    (h : res.Nodup) :
    (l.foldl
      (fun res o => if P o then (if o ∈ res then res else res ++ [o]) else res)
      res).Nodup := by
  induction l generalizing res with
  | nil => exact h
  | cons o l ih =>
    rw [List.foldl_cons]
    by_cases hp : P o
    · rw [if_pos hp]
      by_cases hm : o ∈ res
      · rw [if_pos hm]
        exact ih res h
      · rw [if_neg hm]
        exact ih _ (by simp [List.nodup_append, h, hm])
    · rw [if_neg hp]
      exact ih res h

theorem nearAll_mem (P : GridEntity → Prop) [DecidablePred P]
    (cells : List ((Int × Int) × List GridEntity)) (keys : List (Int × Int))
    (res : List GridEntity) (x : GridEntity) :
    x ∈ keys.foldl
      (fun res k =>
        (cellLookup cells k).foldl
          (fun res o => if P o then (if o ∈ res then res else res ++ [o]) else res)
          res)
      res ↔
    x ∈ res ∨ ∃ k ∈ keys, x ∈ cellLookup cells k ∧ P x := by
  induction keys generalizing res with
  | nil => simp
  | cons k keys ih =>
    rw [List.foldl_cons, ih, addFold_mem]
    constructor
    · rintro ((h | h) | ⟨k', hk', h⟩)
      · exact Or.inl h
      · exact Or.inr ⟨k, List.mem_cons_self k keys, h⟩
      · exact Or.inr ⟨k', List.mem_cons_of_mem k hk', h⟩
    · rintro (h | ⟨k', hk', h⟩)
      · exact Or.inl (Or.inl h)
      · rcases List.mem_cons.mp hk' with hk' | hk'
        · subst hk'
          exact Or.inl (Or.inr h)
        · exact Or.inr ⟨k', hk', h⟩

theorem nearAll_nodup (P : GridEntity → Prop) [DecidablePred P]
    (cells : List ((Int × Int) × List GridEntity)) (keys : List (Int × Int))
    (res : List GridEntity) (h : res.Nodup) :
    (keys.foldl
      (fun res k =>
        (cellLookup cells k).foldl
          (fun res o => if P o then (if o ∈ res then res else res ++ [o]) else res)
          res)
      res).Nodup := by
  induction keys generalizing res with
  | nil => exact h
  | cons k keys ih =>
    rw [List.foldl_cons]
    exact ih _ (addFold_nodup P _ res h)

theorem cellLookup_cons_self (p : (Int × Int) × List GridEntity)
    (rest : List ((Int × Int) × List GridEntity)) (k : Int × Int) (h : p.1 = k) :
    cellLookup (p :: rest) k = p.2 := by
  rw [cellLookup, List.find?_cons_of_pos]
  simp [h]

theorem cellLookup_cons_ne (p : (Int × Int) × List GridEntity)
    (rest : List ((Int × Int) × List GridEntity)) (k : Int × Int) (h : ¬ p.1 = k) :
    cellLookup (p :: rest) k = cellLookup rest k := by
  rw [cellLookup, List.find?_cons_of_neg]
  · rfl
  · simpa using h

theorem cellLookup_cellAdd_self (cells : List ((Int × Int) × List GridEntity))
    (k : Int × Int) (e : GridEntity) :
    cellLookup (cellAdd cells k e) k = cellLookup cells k ++ [e] := by
  induction cells with
  | nil =>
    rw [cellAdd, cellLookup_cons_self (k, [e]) [] k rfl]
    simp [cellLookup]
  | cons p rest ih =>
    by_cases hp : p.1 = k
    · rw [cellAdd, if_pos hp, cellLookup_cons_self (p.1, p.2 ++ [e]) rest k hp,
        cellLookup_cons_self p rest k hp]
    · rw [cellAdd, if_neg hp, cellLookup_cons_ne p (cellAdd rest k e) k hp,
        cellLookup_cons_ne p rest k hp]
      exact ih

theorem cellLookup_cellAdd_ne (cells : List ((Int × Int) × List GridEntity))
    (k k' : Int × Int) (e : GridEntity) (h : k' ≠ k) :
    cellLookup (cellAdd cells k e) k' = cellLookup cells k' := by
  induction cells with
  | nil =>
    rw [cellAdd, cellLookup_cons_ne (k, [e]) [] k' (fun hh => h hh.symm)]
  | cons p rest ih =>
    by_cases hp : p.1 = k
    · have hp' : ¬ p.1 = k' := fun hh => h (hh ▸ hp ▸ rfl)
      rw [cellAdd, if_pos hp, cellLookup_cons_ne (p.1, p.2 ++ [e]) rest k' hp',
        cellLookup_cons_ne p rest k' hp']
    · by_cases hp' : p.1 = k'
      · rw [cellAdd, if_neg hp, cellLookup_cons_self p (cellAdd rest k e) k' hp',
          cellLookup_cons_self p rest k' hp']
      · rw [cellAdd, if_neg hp, cellLookup_cons_ne p (cellAdd rest k e) k' hp',
          cellLookup_cons_ne p rest k' hp']
        exact ih

theorem mem_cellLookup_foldAdd (keys : List (Int × Int))
    (cells : List ((Int × Int) × List GridEntity)) (e o : GridEntity) (k : Int × Int) :
    o ∈ cellLookup (keys.foldl (fun cs k0 => cellAdd cs k0 e) cells) k ↔
    o ∈ cellLookup cells k ∨ (o = e ∧ k ∈ keys) := by
  induction keys generalizing cells with
  | nil => simp
  | cons k0 keys ih =>
    rw [List.foldl_cons, ih]
    by_cases hk : k = k0
    · subst hk
      rw [cellLookup_cellAdd_self]
      constructor
      · rintro (h | h)
        · rcases List.mem_append.mp h with h | h
          · exact Or.inl h
          · simp only [List.mem_singleton] at h
            exact Or.inr ⟨h, List.mem_cons_self k keys⟩
        · exact Or.inr ⟨h.1, List.mem_cons_of_mem k h.2⟩
      · rintro (h | ⟨h1, h2⟩)
        · exact Or.inl (List.mem_append_left _ h)
        · subst h1
          exact Or.inl (List.mem_append_right _ (List.mem_singleton_self o))
    · rw [cellLookup_cellAdd_ne cells k0 k e hk]
      constructor
      · rintro (h | h)
        · exact Or.inl h
        · exact Or.inr ⟨h.1, List.mem_cons_of_mem k0 h.2⟩
      · rintro (h | ⟨h1, h2⟩)
        · exact Or.inl h
        · rcases List.mem_cons.mp h2 with h2 | h2
          · exact absurd h2 hk
          · exact Or.inr ⟨h1, h2⟩

theorem scLookup_cons_self (p : Nat × List (Int × Int))
    (rest : List (Nat × List (Int × Int))) (gid : Nat) (h : p.1 = gid) :
    scLookup (p :: rest) gid = some p.2 := by
  rw [scLookup, List.find?_cons_of_pos]
  simp [h]

theorem scLookup_cons_ne (p : Nat × List (Int × Int))
    (rest : List (Nat × List (Int × Int))) (gid : Nat) (h : ¬ p.1 = gid) :
    scLookup (p :: rest) gid = scLookup rest gid := by
  rw [scLookup, List.find?_cons_of_neg]
  · rfl
  · simpa using h

theorem scLookup_scSet_self (sc : List (Nat × List (Int × Int))) (gid : Nat)
    (keys : List (Int × Int)) : scLookup (scSet sc gid keys) gid = some keys := by
  induction sc with
  | nil => rw [scSet, scLookup_cons_self (gid, keys) [] gid rfl]
  | cons p rest ih =>
    by_cases hp : p.1 = gid
    · rw [scSet, if_pos hp, scLookup_cons_self (gid, keys) rest gid rfl]
    · rw [scSet, if_neg hp, scLookup_cons_ne p (scSet rest gid keys) gid hp]
      exact ih

theorem scLookup_scSet_ne (sc : List (Nat × List (Int × Int))) (gid gid' : Nat)
    (keys : List (Int × Int)) (h : gid' ≠ gid) :
    scLookup (scSet sc gid keys) gid' = scLookup sc gid' := by
  induction sc with
  | nil =>
    rw [scSet, scLookup_cons_ne (gid, keys) [] gid' (fun hh => h hh.symm)]
  | cons p rest ih =>
    by_cases hp : p.1 = gid
    · have hp' : ¬ p.1 = gid' := fun hh => h (hh ▸ hp ▸ rfl)
      rw [scSet, if_pos hp, scLookup_cons_ne (gid, keys) rest gid' (fun hh => h hh.symm),
        scLookup_cons_ne p rest gid' hp']
    · by_cases hp' : p.1 = gid'
      · rw [scSet, if_neg hp, scLookup_cons_self p (scSet rest gid keys) gid' hp',
          scLookup_cons_self p rest gid' hp']
      · rw [scSet, if_neg hp, scLookup_cons_ne p (scSet rest gid keys) gid' hp',
          scLookup_cons_ne p rest gid' hp']
        exact ih

theorem insertEntity_params (g : SpatialHashGrid) (e : GridEntity) :
    (g.insertEntity e).cellSize = g.cellSize ∧ (g.insertEntity e).columns = g.columns ∧
    (g.insertEntity e).rows = g.rows := by
  rw [SpatialHashGrid.insertEntity]
  rcases hp : e.pos with _ | ⟨x, y⟩ <;> rcases hr : e.radius with _ | r <;>
    exact ⟨rfl, rfl, rfl⟩

theorem entityCells_insertEntity (g : SpatialHashGrid) (e : GridEntity) (x y r : ℚ) :
    (g.insertEntity e).entityCells x y r = g.entityCells x y r := by
  obtain ⟨h1, h2, h3⟩ := insertEntity_params g e
  rw [SpatialHashGrid.entityCells, SpatialHashGrid.entityCells, h1, h2, h3]

theorem scLookup_insertAll_not_mem (es : List GridEntity) (g : SpatialHashGrid) (i : Nat)
    (hgid : i ∉ es.map GridEntity.gid) :
    scLookup (g.insertAll es).spatialCells i = scLookup g.spatialCells i := by
  induction es generalizing g with
  | nil => rfl
  | cons e' es ih =>
    simp only [List.map_cons, List.mem_cons, not_or] at hgid
    rw [SpatialHashGrid.insertAll, List.foldl_cons]
    have hstep : scLookup (g.insertEntity e').spatialCells i = scLookup g.spatialCells i := by
      rw [SpatialHashGrid.insertEntity]
      rcases hp : e'.pos with _ | ⟨x, y⟩ <;> rcases hr : e'.radius with _ | r
      · rfl
      · rfl
      · rfl
      · exact scLookup_scSet_ne g.spatialCells e'.gid i _ hgid.1
    rw [← hstep]
    exact ih (g.insertEntity e') hgid.2

theorem scLookup_insertAll (es : List GridEntity) (g : SpatialHashGrid) (e : GridEntity)
    (x y r : ℚ) (hes : e ∈ es) (hnodup : (es.map GridEntity.gid).Nodup)
    (hp : e.pos = some (x, y)) (hr : e.radius = some r) :
    scLookup (g.insertAll es).spatialCells e.gid = some (g.entityCells x y r) := by
  induction es generalizing g with
  | nil => cases hes
  | cons e' es ih =>
    simp only [List.map_cons, List.nodup_cons] at hnodup
    rw [SpatialHashGrid.insertAll, List.foldl_cons]
    rcases List.mem_cons.mp hes with he | he
    · subst he
      have hgid : e.gid ∉ es.map GridEntity.gid := hnodup.1
      have hsc : scLookup (g.insertEntity e).spatialCells e.gid =
          some (g.entityCells x y r) := by
        rw [SpatialHashGrid.insertEntity, hp, hr]
        exact scLookup_scSet_self g.spatialCells e.gid _
      rw [show es.foldl SpatialHashGrid.insertEntity (g.insertEntity e) =
        (g.insertEntity e).insertAll es from rfl]
      rw [scLookup_insertAll_not_mem es (g.insertEntity e) e.gid hgid]
      exact hsc
    · rw [show es.foldl SpatialHashGrid.insertEntity (g.insertEntity e') =
        (g.insertEntity e').insertAll es from rfl]
      rw [ih (g.insertEntity e') he hnodup.2]
      rw [entityCells_insertEntity]

/-- C9: after inserting any collection of entities with distinct ids
into a fresh grid, getNearbyEntities on an inserted entity returns a
duplicate free list that never contains the queried entity, and whose
members are exactly the entities occupying some cell of the cell range
recorded for the queried entity, other than the entity itself and
passing the optional type filter. -/
theorem c9_getNearbyEntities_spec (w h cs : ℚ) (es : List GridEntity) (e : GridEntity)
    (x y r : ℚ) (t : Option String)
    (hes : e ∈ es) (hnodup : (es.map GridEntity.gid).Nodup)
    (hp : e.pos = some (x, y)) (hr : e.radius = some r) :
    scLookup ((SpatialHashGrid.make w h cs).insertAll es).spatialCells e.gid =
      some ((SpatialHashGrid.make w h cs).entityCells x y r) ∧
    (((SpatialHashGrid.make w h cs).insertAll es).getNearbyEntities e t).Nodup ∧
    e ∉ ((SpatialHashGrid.make w h cs).insertAll es).getNearbyEntities e t ∧
    (∀ o, o ∈ ((SpatialHashGrid.make w h cs).insertAll es).getNearbyEntities e t ↔
      (o ≠ e ∧ typeMatches t o ∧
        ∃ k ∈ (SpatialHashGrid.make w h cs).entityCells x y r,
          o ∈ cellLookup ((SpatialHashGrid.make w h cs).insertAll es).cells k)) := by
  have hsc := scLookup_insertAll es (SpatialHashGrid.make w h cs) e x y r hes hnodup hp hr
  have hunfold : ((SpatialHashGrid.make w h cs).insertAll es).getNearbyEntities e t =
      ((SpatialHashGrid.make w h cs).entityCells x y r).foldl
        (fun res k =>
          (cellLookup ((SpatialHashGrid.make w h cs).insertAll es).cells k).foldl
            (fun res o =>
              if o ≠ e ∧ typeMatches t o then (if o ∈ res then res else res ++ [o])
              else res)
            res)
        [] := by
    rw [SpatialHashGrid.getNearbyEntities, hp, hsc]
  refine ⟨hsc, ?_, ?_, ?_⟩
  · rw [hunfold]
    exact nearAll_nodup _ _ _ [] List.nodup_nil
  · rw [hunfold]
    intro hmem
    rcases (nearAll_mem _ _ _ [] e).mp hmem with h0 | ⟨k, hk, hck, hP⟩
    · cases h0
    · exact hP.1 rfl
  · intro o
    rw [hunfold, nearAll_mem]
    constructor
    · rintro (h0 | ⟨k, hk, hck, hP⟩)
      · cases h0
      · exact ⟨hP.1, hP.2, k, hk, hck⟩
    · rintro ⟨hne, htm, k, hk, hck⟩
      exact Or.inr ⟨k, hk, hck, hne, htm⟩

/-- C9, witness: three entities with distinct ids inserted into a 100 by
100 grid with cell size 10; querying the first yields a duplicate free
result that does not contain it, the theorem applied at that input. -/
theorem c9_getNearbyEntities_spec_witness :
    (⟨0, some (5, 5), some 1, "a"⟩ : GridEntity) ∈
      [(⟨0, some (5, 5), some 1, "a"⟩ : GridEntity),
       ⟨1, some (5, 6), some 1, "b"⟩, ⟨2, some (50, 50), some 1, ""⟩] ∧
    (([(⟨0, some (5, 5), some 1, "a"⟩ : GridEntity),
       ⟨1, some (5, 6), some 1, "b"⟩,
       ⟨2, some (50, 50), some 1, ""⟩].map GridEntity.gid).Nodup) ∧
    (((SpatialHashGrid.make 100 100 10).insertAll
        [⟨0, some (5, 5), some 1, "a"⟩, ⟨1, some (5, 6), some 1, "b"⟩,
         ⟨2, some (50, 50), some 1, ""⟩]).getNearbyEntities
      ⟨0, some (5, 5), some 1, "a"⟩ none).Nodup ∧
    (⟨0, some (5, 5), some 1, "a"⟩ : GridEntity) ∉
      ((SpatialHashGrid.make 100 100 10).insertAll
        [⟨0, some (5, 5), some 1, "a"⟩, ⟨1, some (5, 6), some 1, "b"⟩,
         ⟨2, some (50, 50), some 1, ""⟩]).getNearbyEntities
        ⟨0, some (5, 5), some 1, "a"⟩ none := by
  have hes : (⟨0, some (5, 5), some 1, "a"⟩ : GridEntity) ∈
      [(⟨0, some (5, 5), some 1, "a"⟩ : GridEntity),
       ⟨1, some (5, 6), some 1, "b"⟩, ⟨2, some (50, 50), some 1, ""⟩] :=
    List.mem_cons_self _ _
  have hnodup : (([(⟨0, some (5, 5), some 1, "a"⟩ : GridEntity),
      ⟨1, some (5, 6), some 1, "b"⟩,
      ⟨2, some (50, 50), some 1, ""⟩].map GridEntity.gid)).Nodup := by
    simp
  have h := c9_getNearbyEntities_spec 100 100 10
    [⟨0, some (5, 5), some 1, "a"⟩, ⟨1, some (5, 6), some 1, "b"⟩,
     ⟨2, some (50, 50), some 1, ""⟩]
    ⟨0, some (5, 5), some 1, "a"⟩ 5 5 1 none hes hnodup rfl rfl
  exact ⟨hes, hnodup, h.2.1, h.2.2.1⟩

end WebShooter
